import Mathlib

/-!
# Scoundrel card game — verification of the rules engine (src/game.js)

A shallow embedding of the game's data model and operations.  JavaScript
numbers are modelled as `Int` (all arithmetic in the engine is integral);
the seeded pseudo-random generator's trigonometric step
`s ↦ Math.sin(s) * 10000` is abstracted as a parameter `sinFn : ℚ → ℚ`
(its output feeds `s - Math.floor(s)`, so the generator's observable
output is a rational in `[0,1)` whatever `sinFn` returns).  The event log
is presentation-only and is omitted from the state; the score expression
that `endGame` computes for its log message is mirrored by the standalone
definition `endGameLossScore`.
-/

namespace Scoundrel

/-- Card suits (`SUITS` in game.js). -/
inductive Suit where
  | hearts
  | diamonds
  | clubs
  | spades
deriving DecidableEq, Repr

/-- A playing card as in game.js: `{ suit, rank, value }`. -/
structure Card where
  suit : Suit
  rank : String
  value : Int
deriving DecidableEq, Repr

/-- Card types derived from the suit (`getCardType`).  The source's
`'unknown'` fallback is unreachable here because `Suit` is closed. -/
inductive CardType where
  | monster
  | weapon
  | potion
deriving DecidableEq, Repr

/-- `getCardType` from game.js. -/
def getCardType (card : Card) : CardType :=
  if card.suit = Suit.clubs ∨ card.suit = Suit.spades then CardType.monster
  else if card.suit = Suit.diamonds then CardType.weapon
  else CardType.potion

/-- The `RANKS` table in its JavaScript iteration order
(integer-like keys `'2'..'10'` ascending, then `'J','Q','K','A'`). -/
def RANKS : List (String × Int) :=
  [("2", 2), ("3", 3), ("4", 4), ("5", 5), ("6", 6), ("7", 7), ("8", 8),
   ("9", 9), ("10", 10), ("J", 11), ("Q", 12), ("K", 13), ("A", 14)]

/-- `createDeck` from game.js: all clubs and spades, diamonds 2–10,
hearts 2–10 — 44 cards. -/
def createDeck : List Card :=
  (([Suit.clubs, Suit.spades].map fun suit =>
      RANKS.map fun rv => { suit := suit, rank := rv.1, value := rv.2 : Card }).flatten)
  ++ ((RANKS.filter fun rv => decide (2 ≤ rv.2) && decide (rv.2 ≤ 10)).map
      fun rv => { suit := Suit.diamonds, rank := rv.1, value := rv.2 : Card })
  ++ ((RANKS.filter fun rv => decide (2 ≤ rv.2) && decide (rv.2 ≤ 10)).map
      fun rv => { suit := Suit.hearts, rank := rv.1, value := rv.2 : Card })

/-- One call of the seeded generator closure in `shuffle`:
`s = Math.sin(s) * 10000; return s - Math.floor(s)`.
Returns (output, new internal state); `sinFn` abstracts the host's
`s ↦ Math.sin(s) * 10000` computation. -/
def rngStep (sinFn : ℚ → ℚ) (s : ℚ) : ℚ × ℚ :=
  let s1 := sinFn s
  (s1 - ⌊s1⌋, s1)

/-- The in-place swap `[array[i], array[j]] = [array[j], array[i]]`.
Out-of-range indices leave the array unchanged (never hit when the
generator output lies in `[0,1)`). -/
def swapCards (a : Array Card) (i j : Nat) : Array Card :=
  if h : i < a.size ∧ j < a.size then a.swap ⟨i, h.1⟩ ⟨j, h.2⟩ else a

/-- The Fisher–Yates loop of `shuffle`: the first argument is the loop
index `i`, running from `array.length - 1` down to `1`; at index `i`,
`j = Math.floor(rng() * (i + 1))`. -/
def fyLoop (sinFn : ℚ → ℚ) : Nat → ℚ → Array Card → Array Card
  | 0, _, a => a
  | i + 1, s, a =>
    let r := rngStep sinFn s
    let j : Nat := (⌊r.1 * ((i : ℚ) + 2)⌋).toNat
    fyLoop sinFn i r.2 (swapCards a (i + 1) j)

/-- `shuffle(array, seed)` from game.js, in the seeded branch (the
unseeded branch draws from `Math.random` and is outside the replay
contract). -/
def shuffle (sinFn : ℚ → ℚ) (l : List Card) (seed : ℚ) : List Card :=
  (fyLoop sinFn (l.length - 1) seed l.toArray).toList

/-- Equipped weapon state: `{ value, lastDefeated, defeatedMonsters }`. -/
structure Weapon where
  value : Int
  lastDefeated : Option Int
  defeatedMonsters : List Card
deriving DecidableEq, Repr

/-- The game state (fields of the `Game` class; the event log is
presentation-only and omitted). -/
structure Game where
  seed : ℚ
  health : Int
  maxHealth : Int
  turn : Nat
  deck : List Card
  discard : List Card
  room : List Card
  weapon : Option Weapon
  canAvoid : Bool
  roomCarriedCard : Option Card
  potionUsedThisTurn : Bool
  selectedCards : List Nat
  gameOver : Bool
  gameWon : Bool
  defeatingCard : Option Card
deriving DecidableEq, Repr

/-- `reset(seed)` in the seeded branch (a `null` seed falls back to
`Date.now()`, outside the replay contract). -/
def Game.reset (sinFn : ℚ → ℚ) (seed : ℚ) : Game :=
  { seed := seed
    health := 20
    maxHealth := 20
    turn := 0
    deck := shuffle sinFn createDeck seed
    discard := []
    room := []
    weapon := none
    canAvoid := true
    roomCarriedCard := none
    potionUsedThisTurn := false
    selectedCards := []
    gameOver := false
    gameWon := false
    defeatingCard := none }

/-- `endGame(won)`: sets the terminal flags.  The score it computes is
only interpolated into a log message; that expression is mirrored by
`endGameLossScore` below. -/
def Game.endGame (g : Game) (won : Bool) : Game :=
  { g with gameOver := true, gameWon := won }

/-- The `remainingMonsters` list built inside both `endGame` (loss
branch) and `getScore`: monster-type cards of the deck followed by
monster-type cards of the room. -/
def remainingMonstersAt (g : Game) : List Card :=
  g.deck.filter (fun c => decide (getCardType c = CardType.monster))
    ++ g.room.filter (fun c => decide (getCardType c = CardType.monster))

/-- The loss score `endGame(false)` computes for its log message:
negative sum of the values of `remainingMonsters`. -/
def endGameLossScore (g : Game) : Int :=
  -((remainingMonstersAt g).foldl (fun sum card => sum + card.value) 0)

/-- `getScore()` from game.js. -/
def Game.getScore (g : Game) : Int :=
  if g.gameWon then g.health
  else if g.gameOver then
    -((remainingMonstersAt g).foldl (fun sum card => sum + card.value) 0)
  else 0

/-- The `while (room.length < 4 && deck.length > 0) room.push(deck.shift())`
loop of `drawRoom`, returning the final (room, deck). -/
def drawLoop : List Card → List Card → List Card × List Card
  | room, [] => (room, [])
  | room, c :: rest =>
    if room.length < 4 then drawLoop (room ++ [c]) rest else (room, c :: rest)

/-- `drawRoom()` from game.js.  Returns (boolean result, new state). -/
def Game.drawRoom (g : Game) : Bool × Game :=
  if g.gameOver = true then (false, g)
  else
    let g1 := { g with room := [], potionUsedThisTurn := false, selectedCards := [] }
    let g2 :=
      match g1.roomCarriedCard with
      | some c => { g1 with room := [c], roomCarriedCard := none }
      | none => g1
    let rd := drawLoop g2.room g2.deck
    let g3 := { g2 with room := rd.1, deck := rd.2, turn := g2.turn + 1 }
    if rd.1.length < 4 ∧ rd.2 = [] then (false, g3.endGame true)
    else (true, g3)

/-- `avoidRoom()` from game.js. -/
def Game.avoidRoom (g : Game) : Bool × Game :=
  if g.canAvoid = false ∨ g.gameOver = true ∨ g.room.length ≠ 4 then (false, g)
  else
    let g1 := { g with deck := g.deck ++ g.room, room := [], canAvoid := false,
                       roomCarriedCard := none }
    (true, (g1.drawRoom).2)

/-- `selectCard(index)` from game.js: `!this.room[index]` is index out of
range; otherwise toggle membership, capped at 3 selections. -/
def Game.selectCard (g : Game) (index : Nat) : Bool × Game :=
  if g.gameOver = true ∨ g.room.length ≤ index then (false, g)
  else if index ∈ g.selectedCards then
    (true, { g with selectedCards := g.selectedCards.erase index })
  else if g.selectedCards.length < 3 then
    (true, { g with selectedCards := g.selectedCards ++ [index] })
  else (true, g)

/-- Result record of `canResolveCard` (fields absent in the source's
object literal are modelled by their JavaScript-undefined defaults). -/
structure ResolveCheck where
  canResolve : Bool
  reason : Option String := none
  forceBareHanded : Bool := false
deriving DecidableEq, Repr

/-- `canResolveCard(card)` from game.js: a pure query. -/
def Game.canResolveCard (g : Game) (card : Card) : ResolveCheck :=
  let type := getCardType card
  if type = CardType.potion ∧ g.potionUsedThisTurn = true then
    { canResolve := false, reason := some "Only one potion per room" }
  else
    match type, g.weapon with
    | CardType.monster, some w =>
      match w.lastDefeated with
      | some ld =>
        if ld < card.value then
          { canResolve := true
            reason := some ("Monster too strong for weapon (" ++ toString card.value
              ++ " > " ++ toString ld ++ ")")
            forceBareHanded := true }
        else { canResolve := true }
      | none => { canResolve := true }
    | _, _ => { canResolve := true }

/-- The standalone card object `resolveWeapon` pushes to discard for the
old weapon: `{ suit: DIAMONDS, rank: String(value), value }`. -/
def weaponToken (value : Int) : Card :=
  { suit := Suit.diamonds, rank := toString value, value := value }

/-- `resolveWeapon(card)` from game.js. -/
def Game.resolveWeapon (g : Game) (card : Card) : Game :=
  let g1 :=
    match g.weapon with
    | some w =>
      { g with discard := g.discard ++ (weaponToken w.value :: w.defeatedMonsters) }
    | none => g
  { g1 with weapon := some { value := card.value, lastDefeated := none,
                             defeatedMonsters := [] } }

/-- `resolvePotion(card)` from game.js. -/
def Game.resolvePotion (g : Game) (card : Card) : Game :=
  if g.potionUsedThisTurn = true then
    { g with discard := g.discard ++ [card] }
  else
    { g with health := min g.maxHealth (g.health + card.value),
             potionUsedThisTurn := true,
             discard := g.discard ++ [card] }

/-- The damage-application tail of `resolveMonster`:
`if (damage > 0) { health -= damage; if (health <= 0) { defeatingCard = card; endGame(false) } }`. -/
def applyMonsterDamage (g : Game) (card : Card) (damage : Int) : Game :=
  if 0 < damage then
    let g2 := { g with health := g.health - damage }
    if g2.health ≤ 0 then ({ g2 with defeatingCard := some card }).endGame false
    else g2
  else g

/-- `resolveMonster(card)` from game.js: pick the branch (weapon usable /
too strong / bare-handed), set `damage`, then apply it. -/
def Game.resolveMonster (g : Game) (card : Card) : Game :=
  match g.weapon with
  | some w =>
    let canUseWeapon : Bool :=
      match w.lastDefeated with
      | none => true
      | some ld => decide (card.value ≤ ld)
    if canUseWeapon then
      applyMonsterDamage
        { g with weapon := some { value := w.value, lastDefeated := some card.value,
                                  defeatedMonsters := w.defeatedMonsters ++ [card] } }
        card (max 0 (card.value - w.value))
    else
      applyMonsterDamage { g with discard := g.discard ++ [card] } card card.value
  | none => applyMonsterDamage { g with discard := g.discard ++ [card] } card card.value

/-- The `switch (type)` dispatch in the body of `faceRoom`'s loop. -/
def resolveCard (g : Game) (card : Card) : Game :=
  match getCardType card with
  | CardType.weapon => g.resolveWeapon card
  | CardType.potion => g.resolvePotion card
  | CardType.monster => g.resolveMonster card

/-- The `for (const index of selectedCards)` resolution loop of
`faceRoom`, with its `if (this.gameOver) break`.  A selected index that
no longer references a room card is skipped; through the public API this
cannot occur, since `selectCard` only admits in-range indices. -/
def resolveLoop (g : Game) : List Nat → Game
  | [] => g
  | index :: rest =>
    match g.room[index]? with
    | none => resolveLoop g rest
    | some card =>
      let g1 := resolveCard g card
      if g1.gameOver then g1 else resolveLoop g1 rest

/-- `faceRoom()` from game.js. -/
def Game.faceRoom (g : Game) : Bool × Game :=
  if g.selectedCards.length ≠ 3 ∨ g.gameOver = true then (false, g)
  else
    let g1 := resolveLoop g g.selectedCards
    let g2 :=
      match [0, 1, 2, 3].find? (fun i => decide (i ∉ g.selectedCards)) with
      | some carriedIndex => { g1 with roomCarriedCard := g1.room[carriedIndex]? }
      | none => g1
    let g3 := { g2 with room := [], canAvoid := true, selectedCards := [] }
    if g3.gameOver = false then (true, (g3.drawRoom).2) else (true, g3)

/-! ## Permutation property of the seeded shuffle -/

lemma set_set_perm {α : Type _} [DecidableEq α] (l : List α) (i j : Nat)
    (hi : i < l.length) (hj : j < l.length) :
    ((l.set i l[j]).set j l[i]).Perm l := by
  rw [List.perm_iff_count]
  intro x
  have hj1 : j < (l.set i l[j]).length := by simpa using hj
  rw [List.count_set _ _ _ _ hj1, List.count_set _ _ _ _ hi]
  have hgj : (l.set i l[j])[j] = l[j] := by
    rw [List.getElem_set]
    split <;> rfl
  rw [hgj]
  have ha : l[i] = x → 1 ≤ List.count x l := by
    intro h
    exact List.count_pos_iff.mpr (h ▸ List.getElem_mem hi)
  by_cases h1 : l[i] = x <;> by_cases h2 : l[j] = x
  · have hb := ha h1
    simp [h1, h2, List.length_set]
    omega
  · have hb := ha h1
    simp [h1, h2, List.length_set]
    omega
  · simp [h1, h2, List.length_set]
  · simp [h1, h2, List.length_set]

lemma swapCards_perm (a : Array Card) (i j : Nat) :
    (swapCards a i j).toList.Perm a.toList := by
  unfold swapCards
  split
  · next h =>
    rw [Array.toList_swap]
    have hi : i < a.toList.length := by simpa using h.1
    have hj : j < a.toList.length := by simpa using h.2
    have hgj : a.get ⟨j, h.2⟩ = a.toList[j] := by
      rw [Array.get_eq_getElem]
      exact Array.getElem_eq_getElem_toList h.2
    have hgi : a.get ⟨i, h.1⟩ = a.toList[i] := by
      rw [Array.get_eq_getElem]
      exact Array.getElem_eq_getElem_toList h.1
    rw [hgj, hgi]
    exact set_set_perm a.toList i j hi hj
  · exact List.Perm.refl _

lemma fyLoop_perm (sinFn : ℚ → ℚ) :
    ∀ (n : Nat) (s : ℚ) (a : Array Card), (fyLoop sinFn n s a).toList.Perm a.toList
  | 0, _, _ => List.Perm.refl _
  | n + 1, s, a => by
    rw [fyLoop]
    exact (fyLoop_perm sinFn n _ _).trans (swapCards_perm a _ _)

/-- The seeded shuffle returns a permutation of its input. -/
lemma shuffle_perm (sinFn : ℚ → ℚ) (l : List Card) (seed : ℚ) :
    (shuffle sinFn l seed).Perm l := by
  unfold shuffle
  have := fyLoop_perm sinFn (l.length - 1) seed l.toArray
  simpa [Array.toList_toArray] using this

/-! ## Card collections and the conservation multiset -/

/-- The defeated monsters stacked on the equipped weapon, if any. -/
def stackCards (g : Game) : List Card :=
  match g.weapon with
  | some w => w.defeatedMonsters
  | none => []

/-- The card carried to the next room, as a list. -/
def carriedCards (g : Game) : List Card :=
  match g.roomCarriedCard with
  | some c => [c]
  | none => []

/-- The equipped weapon viewed as the standalone card object that
`resolveWeapon` will push to discard when it is replaced. -/
def tokenCards (g : Game) : List Card :=
  match g.weapon with
  | some w => [weaponToken w.value]
  | none => []

/-- The collection named by the conservation claim: deck ∪ discard ∪ room
∪ weapon.defeatedMonsters ∪ {carriedCard if present} — without the
equipped weapon itself. -/
def allCards (g : Game) : Multiset Card :=
  ↑g.deck + ↑g.discard + ↑g.room + ↑(stackCards g) + ↑(carriedCards g)

/-- `allCards` plus the equipped weapon's card. -/
def allCardsW (g : Game) : Multiset Card :=
  allCards g + ↑(tokenCards g)

/-- Everything off the room: deck, discard, weapon stack, weapon token,
carried card. -/
def offRoom (g : Game) : Multiset Card :=
  ↑g.deck + ↑g.discard + ↑(stackCards g) + ↑(tokenCards g) + ↑(carriedCards g)

lemma allCardsW_eq_offRoom (g : Game) : allCardsW g = offRoom g + ↑g.room := by
  unfold allCardsW allCards offRoom
  abel

/-- Well-formedness of a card in play: a diamond card's rank is the
decimal print of its value (so the token `resolveWeapon` synthesizes for
it is the card itself), and its value is at least 2. -/
def cardOK (c : Card) : Prop :=
  (c.suit = Suit.diamonds → c.rank = toString c.value) ∧ 2 ≤ c.value

instance (c : Card) : Decidable (cardOK c) := by
  unfold cardOK
  infer_instance

/-- All cards in play are well-formed. -/
def goodG (g : Game) : Prop :=
  ∀ x ∈ allCardsW g, cardOK x

/-- State invariant maintained by the public operations at rest points.
(Conservation of the card multiset is handled separately: it holds for
the documented driver flow but a bare `drawRoom` over a standing room
drops that room.) -/
structure GameInv (g : Game) : Prop where
  maxH : g.maxHealth = 20
  healthLe : g.health ≤ 20
  healthPos : g.gameOver = false → 0 < g.health
  wonOver : g.gameWon = true → g.gameOver = true
  wonPos : g.gameWon = true → 0 < g.health
  selNodup : g.selectedCards.Nodup
  selLt : ∀ i ∈ g.selectedCards, i < g.room.length
  selLen : g.selectedCards.length ≤ 3
  carriedNone : g.gameOver = false → g.roomCarriedCard = none
  roomShape : g.gameOver = false → g.room.length = 4 ∨ g.room = []
  good : goodG g

/-! ## Frame and step lemmas for the three resolvers -/

lemma getCardType_weapon_suit {c : Card} (h : getCardType c = CardType.weapon) :
    c.suit = Suit.diamonds := by
  unfold getCardType at h
  rcases hs : c.suit <;> rw [hs] at h <;> simp at h

lemma resolveWeapon_frame (g : Game) (c : Card) :
    (g.resolveWeapon c).room = g.room ∧ (g.resolveWeapon c).deck = g.deck ∧
    (g.resolveWeapon c).selectedCards = g.selectedCards ∧
    (g.resolveWeapon c).roomCarriedCard = g.roomCarriedCard ∧
    (g.resolveWeapon c).maxHealth = g.maxHealth ∧
    (g.resolveWeapon c).health = g.health ∧
    (g.resolveWeapon c).gameOver = g.gameOver ∧
    (g.resolveWeapon c).gameWon = g.gameWon ∧
    (g.resolveWeapon c).potionUsedThisTurn = g.potionUsedThisTurn := by
  unfold Game.resolveWeapon
  rcases hw : g.weapon <;> simp

lemma resolvePotion_frame (g : Game) (c : Card) :
    (g.resolvePotion c).room = g.room ∧ (g.resolvePotion c).deck = g.deck ∧
    (g.resolvePotion c).selectedCards = g.selectedCards ∧
    (g.resolvePotion c).roomCarriedCard = g.roomCarriedCard ∧
    (g.resolvePotion c).maxHealth = g.maxHealth ∧
    (g.resolvePotion c).gameOver = g.gameOver ∧
    (g.resolvePotion c).gameWon = g.gameWon ∧
    (g.resolvePotion c).weapon = g.weapon := by
  unfold Game.resolvePotion
  split_ifs <;> simp

/-- The three possible outcomes of the damage-application tail. -/
lemma applyMonsterDamage_cases (g : Game) (c : Card) (d : Int) :
    (d ≤ 0 ∧ applyMonsterDamage g c d = g) ∨
    (0 < d ∧ 0 < g.health - d ∧
      applyMonsterDamage g c d = { g with health := g.health - d }) ∨
    (0 < d ∧ g.health - d ≤ 0 ∧
      applyMonsterDamage g c d
        = { g with health := g.health - d, defeatingCard := some c,
                   gameOver := true, gameWon := false }) := by
  unfold applyMonsterDamage Game.endGame
  dsimp
  split_ifs with h1 h2
  · right; right
    exact ⟨h1, h2, rfl⟩
  · right; left
    exact ⟨h1, by omega, rfl⟩
  · left
    exact ⟨by omega, rfl⟩

/-- `resolveMonster` expressed through its three branches: the weapon
branch (weapon equipped and usable) and the two bare-handed branches. -/
lemma resolveMonster_cases (g : Game) (c : Card) :
    (∃ w, g.weapon = some w ∧
      (w.lastDefeated = none ∨ ∃ ld, w.lastDefeated = some ld ∧ c.value ≤ ld) ∧
      g.resolveMonster c
        = applyMonsterDamage
            { g with weapon := some { value := w.value, lastDefeated := some c.value,
                                      defeatedMonsters := w.defeatedMonsters ++ [c] } }
            c (max 0 (c.value - w.value))) ∨
    ((g.weapon = none ∨ ∃ w ld, g.weapon = some w ∧ w.lastDefeated = some ld ∧ ld < c.value) ∧
      g.resolveMonster c = applyMonsterDamage { g with discard := g.discard ++ [c] } c c.value) := by
  unfold Game.resolveMonster
  rcases hw : g.weapon with _ | w
  · right
    exact ⟨Or.inl rfl, rfl⟩
  · rcases hl : w.lastDefeated with _ | ld
    · left
      exact ⟨w, rfl, Or.inl hl, by simp [hl]⟩
    · by_cases hv : c.value ≤ ld
      · left
        exact ⟨w, rfl, Or.inr ⟨ld, hl, hv⟩, by simp [hl, hv]⟩
      · right
        exact ⟨Or.inr ⟨w, ld, rfl, hl, by omega⟩, by simp [hl, hv]⟩

lemma resolveMonster_frame (g : Game) (c : Card) :
    (g.resolveMonster c).room = g.room ∧ (g.resolveMonster c).deck = g.deck ∧
    (g.resolveMonster c).selectedCards = g.selectedCards ∧
    (g.resolveMonster c).roomCarriedCard = g.roomCarriedCard ∧
    (g.resolveMonster c).maxHealth = g.maxHealth ∧
    (g.resolveMonster c).potionUsedThisTurn = g.potionUsedThisTurn := by
  rcases resolveMonster_cases g c with ⟨w, hw, _, heq⟩ | ⟨_, heq⟩ <;> rw [heq] <;>
    rcases applyMonsterDamage_cases _ c _ with ⟨_, h⟩ | ⟨_, _, h⟩ | ⟨_, _, h⟩ <;>
      rw [h] <;> simp

lemma resolveMonster_over_mono (g : Game) (c : Card) (h : g.gameOver = true) :
    (g.resolveMonster c).gameOver = true := by
  rcases resolveMonster_cases g c with ⟨w, hw, _, heq⟩ | ⟨_, heq⟩ <;> rw [heq] <;>
    rcases applyMonsterDamage_cases _ c _ with ⟨_, h2⟩ | ⟨_, _, h2⟩ | ⟨_, _, h2⟩ <;>
      rw [h2] <;> exact h

lemma resolveMonster_no_death (g : Game) (c : Card)
    (h : (g.resolveMonster c).gameOver = false) :
    g.gameOver = false ∧ (g.resolveMonster c).gameWon = g.gameWon := by
  have hpre : g.gameOver = false := by
    cases hg : g.gameOver
    · rfl
    · simp [resolveMonster_over_mono g c hg] at h
  refine ⟨hpre, ?_⟩
  rcases resolveMonster_cases g c with ⟨w, hw, _, heq⟩ | ⟨_, heq⟩ <;> rw [heq] at h ⊢ <;>
    rcases applyMonsterDamage_cases _ c _ with ⟨_, h2⟩ | ⟨_, _, h2⟩ | ⟨_, _, h2⟩ <;>
      rw [h2] <;> rw [h2] at h <;> simp_all

lemma resolveMonster_death (g : Game) (c : Card)
    (hpre : g.gameOver = false) (hpost : (g.resolveMonster c).gameOver = true) :
    (g.resolveMonster c).defeatingCard = some c ∧
    (g.resolveMonster c).gameWon = false ∧ (g.resolveMonster c).health ≤ 0 := by
  rcases resolveMonster_cases g c with ⟨w, hw, _, heq⟩ | ⟨_, heq⟩ <;>
    rw [heq] at hpost ⊢ <;>
    rcases applyMonsterDamage_cases _ c _ with ⟨_, h2⟩ | ⟨_, _, h2⟩ | ⟨hd, hh, h2⟩ <;>
      rw [h2] at hpost ⊢ <;> simp_all

lemma resolvePotion_offRoom (g : Game) (c : Card) :
    offRoom (g.resolvePotion c) = offRoom g + ↑[c] := by
  unfold Game.resolvePotion offRoom stackCards tokenCards carriedCards
  split_ifs <;> dsimp <;>
    (simp only [← Multiset.coe_add, ← Multiset.cons_coe, ← Multiset.singleton_add,
      Multiset.coe_singleton]; abel)

lemma applyMonsterDamage_offRoom (g : Game) (c : Card) (d : Int) :
    offRoom (applyMonsterDamage g c d) = offRoom g := by
  rcases applyMonsterDamage_cases g c d with ⟨_, h⟩ | ⟨_, _, h⟩ | ⟨_, _, h⟩ <;>
    rw [h] <;> simp [offRoom, stackCards, tokenCards, carriedCards]

lemma resolveMonster_offRoom (g : Game) (c : Card) :
    offRoom (g.resolveMonster c) = offRoom g + ↑[c] := by
  rcases resolveMonster_cases g c with ⟨w, hw, _, heq⟩ | ⟨_, heq⟩
  · rw [heq, applyMonsterDamage_offRoom]
    unfold offRoom stackCards tokenCards carriedCards
    rw [hw]
    dsimp
    simp only [← Multiset.coe_add, ← Multiset.cons_coe, ← Multiset.singleton_add,
      Multiset.coe_singleton]
    abel
  · rw [heq, applyMonsterDamage_offRoom]
    unfold offRoom stackCards tokenCards carriedCards
    dsimp
    simp only [← Multiset.coe_add, ← Multiset.cons_coe, ← Multiset.singleton_add,
      Multiset.coe_singleton]
    abel

lemma resolveWeapon_offRoom (g : Game) (c : Card)
    (hsuit : c.suit = Suit.diamonds) (hrank : c.rank = toString c.value) :
    offRoom (g.resolveWeapon c) = offRoom g + ↑[c] := by
  have htok : weaponToken c.value = c := by
    unfold weaponToken
    cases c
    simp_all
  unfold Game.resolveWeapon offRoom stackCards tokenCards carriedCards
  rcases hw : g.weapon with _ | w <;> dsimp <;> rw [htok] <;>
    (simp only [← Multiset.coe_add, ← Multiset.cons_coe, ← Multiset.singleton_add,
      Multiset.coe_singleton]; abel)

lemma resolvePotion_allCardsW (g : Game) (c : Card) :
    allCardsW (g.resolvePotion c) = allCardsW g + ↑[c] := by
  rw [allCardsW_eq_offRoom, allCardsW_eq_offRoom, resolvePotion_offRoom,
    (resolvePotion_frame g c).1]
  abel

lemma resolveMonster_allCardsW (g : Game) (c : Card) :
    allCardsW (g.resolveMonster c) = allCardsW g + ↑[c] := by
  rw [allCardsW_eq_offRoom, allCardsW_eq_offRoom, resolveMonster_offRoom,
    (resolveMonster_frame g c).1]
  abel

lemma resolveWeapon_allCardsW (g : Game) (c : Card)
    (hsuit : c.suit = Suit.diamonds) (hrank : c.rank = toString c.value) :
    allCardsW (g.resolveWeapon c) = allCardsW g + ↑[c] := by
  rw [allCardsW_eq_offRoom, allCardsW_eq_offRoom,
    resolveWeapon_offRoom g c hsuit hrank, (resolveWeapon_frame g c).1]
  abel

lemma resolvePotion_healthLe (g : Game) (c : Card)
    (hm : g.maxHealth = 20) (hh : g.health ≤ 20) :
    (g.resolvePotion c).health ≤ 20 := by
  unfold Game.resolvePotion
  split_ifs <;> dsimp <;> [exact hh; exact hm ▸ min_le_left _ _]

lemma resolvePotion_healthPos (g : Game) (c : Card)
    (hm : g.maxHealth = 20) (hh : 0 < g.health) (hv : 2 ≤ c.value) :
    0 < (g.resolvePotion c).health := by
  unfold Game.resolvePotion
  split_ifs <;> dsimp
  · exact hh
  · rw [hm]
    exact lt_min (by norm_num) (by omega)

lemma resolveMonster_healthLe (g : Game) (c : Card)
    (hh : g.health ≤ 20) (hv : 2 ≤ c.value) :
    (g.resolveMonster c).health ≤ 20 := by
  have hmax := le_max_left 0 (c.value - (0 : Int))
  rcases resolveMonster_cases g c with ⟨w, hw, _, heq⟩ | ⟨_, heq⟩ <;> rw [heq] <;>
    rcases applyMonsterDamage_cases _ c _ with ⟨hd, h2⟩ | ⟨hd, _, h2⟩ | ⟨hd, _, h2⟩ <;>
      rw [h2] <;> dsimp <;> omega

lemma resolveMonster_healthPos (g : Game) (c : Card)
    (hpre : g.gameOver = false → 0 < g.health)
    (hpost : (g.resolveMonster c).gameOver = false) :
    0 < (g.resolveMonster c).health := by
  have hh := hpre (resolveMonster_no_death g c hpost).1
  rcases resolveMonster_cases g c with ⟨w, hw, _, heq⟩ | ⟨_, heq⟩ <;>
    rw [heq] at hpost ⊢ <;>
    rcases applyMonsterDamage_cases _ c _ with ⟨hd, h2⟩ | ⟨hd, hgt, h2⟩ | ⟨hd, hle, h2⟩ <;>
      rw [h2] at hpost ⊢ <;> dsimp at hpost ⊢ <;> first | omega | simp_all

/-! ## Lemmas about the dispatch and the faceRoom loop -/

lemma resolveCard_frame (g : Game) (c : Card) :
    (resolveCard g c).room = g.room ∧ (resolveCard g c).deck = g.deck ∧
    (resolveCard g c).selectedCards = g.selectedCards ∧
    (resolveCard g c).roomCarriedCard = g.roomCarriedCard ∧
    (resolveCard g c).maxHealth = g.maxHealth := by
  unfold resolveCard
  rcases getCardType c
  · have h := resolveMonster_frame g c
    tauto
  · have h := resolveWeapon_frame g c
    tauto
  · have h := resolvePotion_frame g c
    tauto

lemma resolveCard_over_mono (g : Game) (c : Card) (h : g.gameOver = true) :
    (resolveCard g c).gameOver = true := by
  unfold resolveCard
  rcases getCardType c
  · exact resolveMonster_over_mono g c h
  · exact (resolveWeapon_frame g c).2.2.2.2.2.2.1.trans h
  · exact (resolvePotion_frame g c).2.2.2.2.2.1.trans h

lemma resolveCard_no_death (g : Game) (c : Card)
    (h : (resolveCard g c).gameOver = false) :
    g.gameOver = false ∧ (resolveCard g c).gameWon = g.gameWon := by
  revert h
  unfold resolveCard
  rcases getCardType c <;> intro h
  · exact resolveMonster_no_death g c h
  · have hf := resolveWeapon_frame g c
    exact ⟨hf.2.2.2.2.2.2.1 ▸ h, hf.2.2.2.2.2.2.2.1⟩
  · have hf := resolvePotion_frame g c
    exact ⟨hf.2.2.2.2.2.1 ▸ h, hf.2.2.2.2.2.2.1⟩

lemma resolveCard_won_false (g : Game) (c : Card) (h : g.gameWon = false) :
    (resolveCard g c).gameWon = false := by
  unfold resolveCard
  rcases getCardType c
  · rcases resolveMonster_cases g c with ⟨w, hw, _, heq⟩ | ⟨_, heq⟩ <;> rw [heq] <;>
      rcases applyMonsterDamage_cases _ c _ with ⟨_, h2⟩ | ⟨_, _, h2⟩ | ⟨_, _, h2⟩ <;>
        rw [h2] <;> simpa using h
  · exact (resolveWeapon_frame g c).2.2.2.2.2.2.2.1.trans h
  · exact (resolvePotion_frame g c).2.2.2.2.2.2.1.trans h

lemma resolveCard_allCardsW (g : Game) (c : Card) (hcok : cardOK c) :
    allCardsW (resolveCard g c) = allCardsW g + ↑[c] := by
  unfold resolveCard
  rcases ht : getCardType c
  · exact resolveMonster_allCardsW g c
  · have hsuit := getCardType_weapon_suit ht
    exact resolveWeapon_allCardsW g c hsuit (hcok.1 hsuit)
  · exact resolvePotion_allCardsW g c

lemma resolveCard_healthLe (g : Game) (c : Card) (hcok : cardOK c)
    (hm : g.maxHealth = 20) (hh : g.health ≤ 20) :
    (resolveCard g c).health ≤ 20 := by
  unfold resolveCard
  rcases getCardType c
  · exact resolveMonster_healthLe g c hh hcok.2
  · exact (resolveWeapon_frame g c).2.2.2.2.2.1 ▸ hh
  · exact resolvePotion_healthLe g c hm hh

lemma resolveCard_healthPos (g : Game) (c : Card) (hcok : cardOK c)
    (hm : g.maxHealth = 20) (hpre : g.gameOver = false → 0 < g.health)
    (hpost : (resolveCard g c).gameOver = false) :
    0 < (resolveCard g c).health := by
  revert hpost
  unfold resolveCard
  rcases getCardType c <;> intro hpost
  · exact resolveMonster_healthPos g c hpre hpost
  · have hf := resolveWeapon_frame g c
    exact hf.2.2.2.2.2.1 ▸ hpre (hf.2.2.2.2.2.2.1 ▸ hpost)
  · have hf := resolvePotion_frame g c
    exact resolvePotion_healthPos g c hm (hpre (hf.2.2.2.2.2.1 ▸ hpost)) hcok.2

/-- The part of the state invariant threaded through the resolution loop. -/
def LoopInv (g : Game) : Prop :=
  g.maxHealth = 20 ∧ g.health ≤ 20 ∧ (g.gameOver = false → 0 < g.health) ∧
  (∀ x ∈ allCardsW g, cardOK x)

lemma room_mem_allCardsW {g : Game} {c : Card} (h : c ∈ g.room) :
    c ∈ allCardsW g := by
  unfold allCardsW allCards
  simp only [Multiset.mem_add, Multiset.mem_coe]
  tauto

lemma resolveCard_loopInv (g : Game) (c : Card) (hcok : cardOK c)
    (h : LoopInv g) : LoopInv (resolveCard g c) := by
  obtain ⟨hm, hh, hp, hgood⟩ := h
  refine ⟨(resolveCard_frame g c).2.2.2.2 ▸ hm, resolveCard_healthLe g c hcok hm hh,
    fun ho => resolveCard_healthPos g c hcok hm hp ho, ?_⟩
  intro x hx
  rw [resolveCard_allCardsW g c hcok] at hx
  rcases Multiset.mem_add.mp hx with hx | hx
  · exact hgood x hx
  · rw [Multiset.mem_coe, List.mem_singleton] at hx
    exact hx ▸ hcok

lemma resolveLoop_loopInv (g : Game) (is : List Nat) (h : LoopInv g) :
    LoopInv (resolveLoop g is) := by
  induction is generalizing g with
  | nil => exact h
  | cons i rest ih =>
    rw [resolveLoop]
    rcases hr : g.room[i]? with _ | c
    · exact ih g h
    · have hcok : cardOK c := h.2.2.2 c (room_mem_allCardsW (List.getElem?_mem hr))
      have h1 := resolveCard_loopInv g c hcok h
      dsimp
      split_ifs
      · exact h1
      · exact ih _ h1

lemma resolveLoop_frame (g : Game) (is : List Nat) :
    (resolveLoop g is).room = g.room ∧ (resolveLoop g is).deck = g.deck ∧
    (resolveLoop g is).selectedCards = g.selectedCards ∧
    (resolveLoop g is).roomCarriedCard = g.roomCarriedCard ∧
    (resolveLoop g is).maxHealth = g.maxHealth := by
  induction is generalizing g with
  | nil => exact ⟨rfl, rfl, rfl, rfl, rfl⟩
  | cons i rest ih =>
    rw [resolveLoop]
    rcases hr : g.room[i]? with _ | c
    · exact ih g
    · have hf := resolveCard_frame g c
      dsimp
      split_ifs
      · exact hf
      · have hl := ih (resolveCard g c)
        exact ⟨hl.1.trans hf.1, hl.2.1.trans hf.2.1, hl.2.2.1.trans hf.2.2.1,
          hl.2.2.2.1.trans hf.2.2.2.1, hl.2.2.2.2.trans hf.2.2.2.2⟩

lemma resolveLoop_over_mono (g : Game) (is : List Nat) (h : g.gameOver = true) :
    (resolveLoop g is).gameOver = true := by
  induction is generalizing g with
  | nil => exact h
  | cons i rest ih =>
    rw [resolveLoop]
    rcases hr : g.room[i]? with _ | c
    · exact ih g h
    · have h1 := resolveCard_over_mono g c h
      dsimp
      split_ifs
      all_goals exact h1

lemma resolveLoop_won_false (g : Game) (is : List Nat) (h : g.gameWon = false) :
    (resolveLoop g is).gameWon = false := by
  induction is generalizing g with
  | nil => exact h
  | cons i rest ih =>
    rw [resolveLoop]
    rcases hr : g.room[i]? with _ | c
    · exact ih g h
    · have h1 := resolveCard_won_false g c h
      dsimp
      split_ifs
      all_goals first | exact h1 | exact ih _ h1

lemma resolveLoop_allCardsW (g : Game) (is : List Nat) (h : LoopInv g)
    (hpost : (resolveLoop g is).gameOver = false) :
    allCardsW (resolveLoop g is)
      = allCardsW g + ↑(is.filterMap (fun i => g.room[i]?)) := by
  induction is generalizing g with
  | nil => simp [resolveLoop]
  | cons i rest ih =>
    rw [resolveLoop] at hpost ⊢
    rcases hr : g.room[i]? with _ | c
    · rw [hr] at hpost
      dsimp at hpost
      rw [ih g h hpost]
      simp [List.filterMap_cons, hr]
    · rw [hr] at hpost
      dsimp at hpost
      have hcok : cardOK c := h.2.2.2 c (room_mem_allCardsW (List.getElem?_mem hr))
      have h1 := resolveCard_loopInv g c hcok h
      dsimp
      split_ifs at hpost ⊢ with hov
      · exact absurd hpost (by simp [hov])
      · rw [ih _ h1 hpost, resolveCard_allCardsW g c hcok,
          (resolveCard_frame g c).1]
        simp only [List.filterMap_cons, hr]
        rw [← Multiset.cons_coe, ← Multiset.singleton_add]
        have hsing : ({c} : Multiset Card) = ↑[c] := by simp
        rw [hsing]
        abel

/-! ## The carried index: find? and the four-card pigeonhole -/

lemma mem_range4 {i : Nat} (h : i < 4) : i ∈ [0, 1, 2, 3] := by
  simp only [List.mem_cons, List.not_mem_nil, or_false]
  omega

lemma find_unselected (sel : List Nat) (hlen : sel.length ≤ 3) :
    ∃ u, [0, 1, 2, 3].find? (fun i => decide (i ∉ sel)) = some u ∧
      u < 4 ∧ u ∉ sel := by
  rcases hf : [0, 1, 2, 3].find? (fun i => decide (i ∉ sel)) with _ | u
  · exfalso
    rw [List.find?_eq_none] at hf
    have hsub : [0, 1, 2, 3] ⊆ sel := by
      intro i hi
      have := hf i hi
      simpa using this
    have hnd4 : ([0, 1, 2, 3] : List Nat).Nodup := by decide
    have := (List.subperm_of_subset hnd4 hsub).length_le
    simp at this
    omega
  · refine ⟨u, rfl, ?_, ?_⟩
    · have := List.mem_of_find?_eq_some hf
      simp only [List.mem_cons, List.not_mem_nil, or_false] at this
      omega
    · have := List.find?_some hf
      simpa using this

/-- Three selected indices plus the unselected one exhaust a 4-card room. -/
lemma sel_u_cards (room : List Card) (sel : List Nat) (u : Nat)
    (hroom : room.length = 4) (hnd : sel.Nodup) (hlen : sel.length = 3)
    (hsub : ∀ i ∈ sel, i < 4) (hu : u < 4) (hun : u ∉ sel) :
    (↑((sel ++ [u]).filterMap (fun i => room[i]?)) : Multiset Card) = ↑room := by
  have hperm : (sel ++ [u]).Perm [0, 1, 2, 3] := by
    have hnd2 : (sel ++ [u]).Nodup := by
      rw [List.nodup_append]
      exact ⟨hnd, List.nodup_singleton u, by
        intro a ha hb
        simp only [List.mem_singleton] at hb
        exact hun (hb ▸ ha)⟩
    have hsub2 : (sel ++ [u]) ⊆ [0, 1, 2, 3] := by
      intro i hi
      rcases List.mem_append.mp hi with hi | hi
      · exact mem_range4 (hsub i hi)
      · simp only [List.mem_singleton] at hi
        exact mem_range4 (hi ▸ hu)
    refine (List.subperm_of_subset hnd2 hsub2).perm_of_length_le ?_
    simp [hlen]
  have hmaps := hperm.filterMap (fun i => room[i]?)
  rw [Multiset.coe_eq_coe]
  refine hmaps.trans ?_
  match room, hroom with
  | [a, b, c, d], _ => simp [List.filterMap_cons]

/-! ## Lemmas about the drawing loop of drawRoom -/

lemma drawLoop_append : ∀ (deck room : List Card),
    (drawLoop room deck).1 ++ (drawLoop room deck).2 = room ++ deck := by
  intro deck
  induction deck with
  | nil => intro room; simp [drawLoop]
  | cons c rest ih =>
    intro room
    rw [drawLoop]
    split_ifs
    · rw [ih (room ++ [c])]
      simp
    · rfl

lemma drawLoop_length_le : ∀ (deck room : List Card), room.length ≤ 4 →
    (drawLoop room deck).1.length ≤ 4 := by
  intro deck
  induction deck with
  | nil => intro room h; simpa [drawLoop] using h
  | cons c rest ih =>
    intro room h
    rw [drawLoop]
    split_ifs with hlen
    · exact ih (room ++ [c]) (by simp; omega)
    · simpa using h

lemma drawLoop_complete : ∀ (deck room : List Card),
    (drawLoop room deck).1.length < 4 → (drawLoop room deck).2 = [] := by
  intro deck
  induction deck with
  | nil => intro room _; rfl
  | cons c rest ih =>
    intro room h
    rw [drawLoop] at h ⊢
    split_ifs at h ⊢ with hlen
    · exact ih (room ++ [c]) h
    · dsimp at h
      omega

lemma drawLoop_head : ∀ (deck room : List Card), room ≠ [] →
    (drawLoop room deck).1.head? = room.head? := by
  intro deck
  induction deck with
  | nil => intro room _; rfl
  | cons c rest ih =>
    intro room h
    rw [drawLoop]
    split_ifs
    · rw [ih (room ++ [c]) (by simp [h])]
      rcases room with _ | ⟨r, rs⟩
      · simp at h
      · rfl
    · rfl

/-! ## Operation-level invariant preservation -/

lemma goodG_iff (g : Game) : goodG g ↔
    (∀ x ∈ g.deck, cardOK x) ∧ (∀ x ∈ g.discard, cardOK x) ∧
    (∀ x ∈ g.room, cardOK x) ∧ (∀ x ∈ stackCards g, cardOK x) ∧
    (∀ x ∈ carriedCards g, cardOK x) ∧ (∀ x ∈ tokenCards g, cardOK x) := by
  unfold goodG allCardsW allCards
  constructor
  · intro h
    refine ⟨fun x hx => h x ?_, fun x hx => h x ?_, fun x hx => h x ?_,
      fun x hx => h x ?_, fun x hx => h x ?_, fun x hx => h x ?_⟩ <;>
      simp only [Multiset.mem_add, Multiset.mem_coe] <;> tauto
  · intro h x hx
    simp only [Multiset.mem_add, Multiset.mem_coe] at hx
    tauto

lemma createDeck_good : ∀ x ∈ createDeck, cardOK x := by decide

lemma GameInv.wonFalse {g : Game} (hInv : GameInv g) (hov : g.gameOver = false) :
    g.gameWon = false := by
  cases hwn : g.gameWon
  · rfl
  · rw [hInv.wonOver hwn] at hov
    cases hov

/-- The full invariant holds right after a seeded reset. -/
lemma reset_inv (sinFn : ℚ → ℚ) (seed : ℚ) : GameInv (Game.reset sinFn seed) := by
  unfold Game.reset
  refine ⟨rfl, by norm_num, fun _ => by norm_num, by intro h; simp at h,
    by intro h; simp at h, List.nodup_nil,
    by intro i hi; simp at hi, by simp, fun _ => rfl, fun _ => Or.inr rfl, ?_⟩
  rw [goodG_iff]
  refine ⟨?_, by simp, by simp, by simp [stackCards],
    by simp [carriedCards], by simp [tokenCards]⟩
  intro x hx
  dsimp only at hx
  exact createDeck_good x ((shuffle_perm sinFn createDeck seed).mem_iff.mp hx)

/-- Card conservation at reset. -/
lemma reset_conserve (sinFn : ℚ → ℚ) (seed : ℚ) :
    allCardsW (Game.reset sinFn seed) = ↑createDeck := by
  unfold allCardsW allCards Game.reset stackCards tokenCards carriedCards
  dsimp
  rw [Multiset.coe_eq_coe.mpr (shuffle_perm sinFn createDeck seed)]
  simp

lemma selectCard_inv (g : Game) (i : Nat) (hInv : GameInv g) :
    GameInv (g.selectCard i).2 := by
  unfold Game.selectCard
  split_ifs with h1 h2 h3
  · exact hInv
  · show GameInv { g with selectedCards := g.selectedCards.erase i }
    exact { hInv with
      selNodup := hInv.selNodup.erase i
      selLt := fun j hj =>
        hInv.selLt j ((List.erase_sublist i g.selectedCards).subset hj)
      selLen := le_trans (List.erase_sublist i g.selectedCards).length_le
        hInv.selLen }
  · show GameInv { g with selectedCards := g.selectedCards ++ [i] }
    refine { hInv with
      selNodup := ?_
      selLt := ?_
      selLen := ?_ }
    · rw [List.nodup_append]
      exact ⟨hInv.selNodup, List.nodup_singleton i, by
        intro a ha hb
        simp only [List.mem_singleton] at hb
        subst hb
        exact h2 ha⟩
    · intro j hj
      show j < g.room.length
      rcases List.mem_append.mp hj with hj | hj
      · exact hInv.selLt j hj
      · simp only [List.mem_singleton] at hj
        subst hj
        have hneg := h1
        push_neg at hneg
        omega
    · simp only [List.length_append, List.length_singleton]
      omega
  · exact hInv

lemma selectCard_allCardsW (g : Game) (i : Nat) :
    allCardsW (g.selectCard i).2 = allCardsW g := by
  unfold Game.selectCard
  split_ifs <;> rfl

lemma selectCard_over (g : Game) (i : Nat) :
    (g.selectCard i).2.gameOver = g.gameOver := by
  unfold Game.selectCard
  split_ifs <;> rfl

lemma drawRoom_new_cards (room0 deck : List Card)
    (h0 : ∀ x ∈ room0 ++ deck, cardOK x) :
    (∀ x ∈ (drawLoop room0 deck).1, cardOK x) ∧
    (∀ x ∈ (drawLoop room0 deck).2, cardOK x) := by
  have happ := drawLoop_append deck room0
  constructor
  · intro x hx
    exact h0 x (happ ▸ List.mem_append_left _ hx)
  · intro x hx
    exact h0 x (happ ▸ List.mem_append_right _ hx)

lemma drawRoom_room_four (room0 deck : List Card) (h0 : room0.length ≤ 4)
    (hnw : ¬((drawLoop room0 deck).1.length < 4 ∧ (drawLoop room0 deck).2 = [])) :
    (drawLoop room0 deck).1.length = 4 := by
  have hle := drawLoop_length_le deck room0 h0
  by_cases hlt : (drawLoop room0 deck).1.length < 4
  · exact absurd ⟨hlt, drawLoop_complete deck room0 hlt⟩ hnw
  · omega

/-- `drawRoom` on a state that is not over: full invariant on the result,
assuming only the room-independent core facts about the input. -/
lemma drawRoom_inv_aux (g : Game) (hover : g.gameOver = false)
    (hm : g.maxHealth = 20) (hh : g.health ≤ 20) (hp : 0 < g.health)
    (hwon : g.gameWon = false) (hgood : goodG g) : GameInv (g.drawRoom).2 := by
  obtain ⟨hgd, hgx, hgr, hgs, hgc, hgt⟩ := (goodG_iff g).mp hgood
  unfold Game.drawRoom Game.endGame
  rw [hover]
  dsimp
  rcases hc : g.roomCarriedCard with _ | c
  · have hnew := drawRoom_new_cards [] g.deck (by simpa using hgd)
    dsimp
    split_ifs with hwin
    · refine ⟨hm, hh, ?_, fun _ => rfl, fun _ => hp, List.nodup_nil,
        by intro i hi; simp at hi, by simp, ?_, ?_, ?_⟩
      · intro hfo; exact absurd hfo (by simp)
      · intro hfo; exact absurd hfo (by simp)
      · intro hfo; exact absurd hfo (by simp)
      · rw [goodG_iff]
        exact ⟨hnew.2, hgx, hnew.1, hgs, by intro x hx; simp [carriedCards] at hx, hgt⟩
    · refine ⟨hm, hh, fun _ => hp, fun hw => absurd hw (by simp [hwon]),
        fun hw => absurd hw (by simp [hwon]), List.nodup_nil,
        by intro i hi; simp at hi, by simp, fun _ => rfl, ?_, ?_⟩
      · intro _
        exact Or.inl (drawRoom_room_four [] g.deck (by simp) hwin)
      · rw [goodG_iff]
        refine ⟨hnew.2, hgx, hnew.1, hgs, ?_, hgt⟩
        intro x hx
        simp only [carriedCards, hc] at hx
        simp at hx
  · have hcok : cardOK c := by
      apply hgc
      simp [carriedCards, hc]
    have hnew := drawRoom_new_cards [c] g.deck (by
      intro x hx
      rcases List.mem_append.mp hx with hx | hx
      · simp only [List.mem_singleton] at hx
        exact hx ▸ hcok
      · exact hgd x hx)
    dsimp
    split_ifs with hwin
    · refine ⟨hm, hh, ?_, fun _ => rfl, fun _ => hp, List.nodup_nil,
        by intro i hi; simp at hi, by simp, ?_, ?_, ?_⟩
      · intro hfo; exact absurd hfo (by simp)
      · intro hfo; exact absurd hfo (by simp)
      · intro hfo; exact absurd hfo (by simp)
      · rw [goodG_iff]
        exact ⟨hnew.2, hgx, hnew.1, hgs, by intro x hx; simp [carriedCards] at hx, hgt⟩
    · refine ⟨hm, hh, fun _ => hp, fun hw => absurd hw (by simp [hwon]),
        fun hw => absurd hw (by simp [hwon]), List.nodup_nil,
        by intro i hi; simp at hi, by simp, fun _ => rfl, ?_, ?_⟩
      · intro _
        exact Or.inl (drawRoom_room_four [c] g.deck (by simp) hwin)
      · rw [goodG_iff]
        refine ⟨hnew.2, hgx, hnew.1, hgs, ?_, hgt⟩
        intro x hx
        simp only [carriedCards] at hx
        simp at hx

lemma drawRoom_over_keep (g : Game) (h : g.gameOver = true) :
    g.drawRoom = (false, g) := by
  unfold Game.drawRoom
  rw [h]
  simp

lemma avoidRoom_over_keep (g : Game) (h : g.gameOver = true) :
    g.avoidRoom = (false, g) := by
  unfold Game.avoidRoom
  rw [if_pos (Or.inr (Or.inl h))]

lemma faceRoom_over_keep (g : Game) (h : g.gameOver = true) :
    g.faceRoom = (false, g) := by
  unfold Game.faceRoom
  rw [if_pos (Or.inr h)]

lemma drawRoom_conserve (g : Game) (hroom : g.room = []) :
    allCardsW (g.drawRoom).2 = allCardsW g := by
  cases hov : g.gameOver
  · unfold Game.drawRoom Game.endGame
    rw [hov]
    dsimp
    rcases hc : g.roomCarriedCard with _ | c
    · have h2 : (↑(drawLoop [] g.deck).1 : Multiset Card) + ↑(drawLoop [] g.deck).2
          = ↑g.deck := by
        rw [Multiset.coe_add, drawLoop_append]
        simp
      dsimp
      split_ifs <;>
        · unfold allCardsW allCards stackCards tokenCards carriedCards
          dsimp
          rw [Multiset.ext]
          intro x
          have hcnt := congrArg (Multiset.count x) h2
          simp only [← Multiset.coe_add, Multiset.count_add, hroom, hc,
            Multiset.coe_nil, Multiset.count_zero] at hcnt ⊢
          omega
    · have h2 : (↑(drawLoop [c] g.deck).1 : Multiset Card) + ↑(drawLoop [c] g.deck).2
          = ↑[c] + ↑g.deck := by
        rw [Multiset.coe_add, drawLoop_append, Multiset.coe_add]
      dsimp
      split_ifs <;>
        · unfold allCardsW allCards stackCards tokenCards carriedCards
          dsimp
          rw [Multiset.ext]
          intro x
          have hcnt := congrArg (Multiset.count x) h2
          simp only [← Multiset.coe_add, Multiset.count_add, hroom, hc,
            Multiset.coe_nil, Multiset.count_zero] at hcnt ⊢
          omega
  · rw [drawRoom_over_keep g hov]

lemma avoidRoom_inv (g : Game) (hInv : GameInv g) : GameInv (g.avoidRoom).2 := by
  unfold Game.avoidRoom
  split_ifs with h1
  · exact hInv
  · push_neg at h1
    obtain ⟨hca, hovne, hlen⟩ := h1
    dsimp
    apply drawRoom_inv_aux
    · simpa using hovne
    · exact hInv.maxH
    · exact hInv.healthLe
    · exact hInv.healthPos (by simpa using hovne)
    · exact hInv.wonFalse (by simpa using hovne)
    · rw [goodG_iff]
      obtain ⟨hd, hx, hr, hs, hc2, ht⟩ := (goodG_iff g).mp hInv.good
      refine ⟨?_, hx, by simp, hs, by intro x h; simp [carriedCards] at h, ht⟩
      intro x hx2
      rcases List.mem_append.mp hx2 with h | h
      · exact hd x h
      · exact hr x h

lemma avoidRoom_conserve (g : Game) (hInv : GameInv g) :
    allCardsW (g.avoidRoom).2 = allCardsW g := by
  unfold Game.avoidRoom
  split_ifs with h1
  · rfl
  · push_neg at h1
    obtain ⟨hca, hovne, hlen⟩ := h1
    have hover : g.gameOver = false := by simpa using hovne
    have hcarried : g.roomCarriedCard = none := hInv.carriedNone hover
    dsimp
    rw [drawRoom_conserve _ rfl]
    unfold allCardsW allCards stackCards tokenCards carriedCards
    dsimp
    rw [hcarried]
    rw [Multiset.ext]
    intro x
    simp only [← Multiset.coe_add, Multiset.count_add, List.append_assoc]
    simp only [Multiset.coe_nil, Multiset.count_zero]
    omega

lemma faceRoom_g3_good (gl : Game) (u : Nat) (hgood : goodG gl) :
    goodG { gl with roomCarriedCard := gl.room[u]?, room := [], canAvoid := true,
                    selectedCards := [] } := by
  rw [goodG_iff]
  obtain ⟨hd, hx, hr, hs, hc2, ht⟩ := (goodG_iff gl).mp hgood
  refine ⟨hd, hx, by simp, hs, ?_, ht⟩
  intro x hx2
  simp only [carriedCards] at hx2
  rcases hru : gl.room[u]? with _ | cu
  · rw [hru] at hx2
    simp at hx2
  · rw [hru] at hx2
    simp only [List.mem_singleton] at hx2
    exact hx2 ▸ hr cu (List.getElem?_mem hru)

lemma faceRoom_inv (g : Game) (hInv : GameInv g) : GameInv (g.faceRoom).2 := by
  unfold Game.faceRoom
  split_ifs with h1
  · exact hInv
  · push_neg at h1
    obtain ⟨hsel, hovne⟩ := h1
    have hov' : g.gameOver = false := by simpa using hovne
    obtain ⟨u, hfind, hu, hun⟩ := find_unselected g.selectedCards (by omega)
    rw [hfind]
    dsimp
    have hL : LoopInv g := ⟨hInv.maxH, hInv.healthLe, hInv.healthPos, hInv.good⟩
    have hLl := resolveLoop_loopInv g g.selectedCards hL
    have hfr := resolveLoop_frame g g.selectedCards
    have hgood3 := faceRoom_g3_good (resolveLoop g g.selectedCards) u hLl.2.2.2
    have hwonGl := resolveLoop_won_false g g.selectedCards (hInv.wonFalse hov')
    split_ifs with hg3ov
    · apply drawRoom_inv_aux
      · exact hg3ov
      · exact hLl.1
      · exact hLl.2.1
      · exact hLl.2.2.1 hg3ov
      · exact hwonGl
      · exact hgood3
    · have hover3 : (resolveLoop g g.selectedCards).gameOver = true := by
        revert hg3ov
        rcases (resolveLoop g g.selectedCards).gameOver <;> simp
      refine ⟨hLl.1, hLl.2.1, ?_, fun hw => absurd hw (by simp [hwonGl]),
        fun hw => absurd hw (by simp [hwonGl]), List.nodup_nil,
        by intro i hi; simp at hi, by simp, ?_, ?_, hgood3⟩
      · intro hfo
        exact absurd hfo (by simp [hover3])
      · intro hfo
        exact absurd hfo (by simp [hover3])
      · intro hfo
        exact absurd hfo (by simp [hover3])

lemma faceRoom_conserve (g : Game) (hInv : GameInv g)
    (hpost : ((g.faceRoom).2).gameOver = false) :
    allCardsW (g.faceRoom).2 = allCardsW g := by
  revert hpost
  unfold Game.faceRoom
  split_ifs with h1
  · intro _
    rfl
  · push_neg at h1
    obtain ⟨hsel, hovne⟩ := h1
    have hov' : g.gameOver = false := by simpa using hovne
    obtain ⟨u, hfind, hu, hun⟩ := find_unselected g.selectedCards (by omega)
    rw [hfind]
    dsimp
    have hL : LoopInv g := ⟨hInv.maxH, hInv.healthLe, hInv.healthPos, hInv.good⟩
    have hfr := resolveLoop_frame g g.selectedCards
    split_ifs with hg3ov
    · intro _
      rw [drawRoom_conserve _ rfl]
      have hloop := resolveLoop_allCardsW g g.selectedCards hL hg3ov
      have hroom4 : g.room.length = 4 := by
        rcases hInv.roomShape hov' with h | h
        · exact h
        · exfalso
          have hne : g.selectedCards ≠ [] := by
            intro he
            rw [he] at hsel
            simp at hsel
          obtain ⟨i, hi⟩ := List.exists_mem_of_ne_nil _ hne
          have := hInv.selLt i hi
          rw [h] at this
          simp at this
      have hselcards := sel_u_cards g.room g.selectedCards u hroom4 hInv.selNodup
        hsel (fun i hi => hroom4 ▸ hInv.selLt i hi) hu hun
      have hulen : u < g.room.length := by omega
      have hru : g.room[u]? = some g.room[u] := List.getElem?_eq_getElem hulen
      have hcar : (resolveLoop g g.selectedCards).roomCarriedCard = none := by
        rw [hfr.2.2.2.1]
        exact hInv.carriedNone hov'
      rw [Multiset.ext]
      intro x
      have h1c := congrArg (Multiset.count x) hloop
      have h2c := congrArg (Multiset.count x) hselcards
      rw [List.filterMap_append] at h2c
      have hcarG : g.roomCarriedCard = none := hInv.carriedNone hov'
      simp only [allCardsW, allCards, stackCards, tokenCards, carriedCards] at h1c ⊢
      dsimp at h1c ⊢
      rw [hfr.1, hfr.2.2.2.1, hcarG] at h1c
      dsimp at h1c
      rw [hfr.1, hru]
      dsimp
      simp only [List.filterMap_cons, List.filterMap_nil, hru] at h2c
      simp only [← Multiset.coe_add, Multiset.count_add, Multiset.coe_nil,
        Multiset.count_zero, hcarG, Multiset.coe_singleton] at h1c h2c ⊢
      omega
    · intro hpost
      exact absurd hpost hg3ov

/-- Full invariant preservation for `drawRoom` from any state. -/
lemma drawRoom_inv (g : Game) (hInv : GameInv g) : GameInv (g.drawRoom).2 := by
  cases hov : g.gameOver
  · exact drawRoom_inv_aux g hov hInv.maxH hInv.healthLe (hInv.healthPos hov)
      (hInv.wonFalse hov) hInv.good
  · rw [drawRoom_over_keep g hov]
    exact hInv

/-- States reachable from a seeded `reset` through arbitrary sequences of
the public operations. -/
inductive Reachable (sinFn : ℚ → ℚ) : Game → Prop where
  | reset (seed : ℚ) : Reachable sinFn (Game.reset sinFn seed)
  | draw {g : Game} : Reachable sinFn g → Reachable sinFn (g.drawRoom).2
  | avoid {g : Game} : Reachable sinFn g → Reachable sinFn (g.avoidRoom).2
  | select {g : Game} (i : Nat) : Reachable sinFn g → Reachable sinFn (g.selectCard i).2
  | face {g : Game} : Reachable sinFn g → Reachable sinFn (g.faceRoom).2

/-- The documented driver flow: identical to `Reachable` except that
`drawRoom` is invoked directly only over an empty room (the UI calls it
only right after `reset`; otherwise rooms are refilled by the internal
calls inside `avoidRoom`/`faceRoom`).  A bare `drawRoom` over a standing
room silently discards that room's cards. -/
inductive ReachableFlow (sinFn : ℚ → ℚ) : Game → Prop where
  | reset (seed : ℚ) : ReachableFlow sinFn (Game.reset sinFn seed)
  | draw {g : Game} : g.room = [] → ReachableFlow sinFn g →
      ReachableFlow sinFn (g.drawRoom).2
  | avoid {g : Game} : ReachableFlow sinFn g → ReachableFlow sinFn (g.avoidRoom).2
  | select {g : Game} (i : Nat) : ReachableFlow sinFn g →
      ReachableFlow sinFn (g.selectCard i).2
  | face {g : Game} : ReachableFlow sinFn g → ReachableFlow sinFn (g.faceRoom).2

/-- The master invariant: every reachable rest state satisfies `GameInv`. -/
lemma reachable_inv {sinFn : ℚ → ℚ} {g : Game} (h : Reachable sinFn g) :
    GameInv g := by
  induction h with
  | reset s => exact reset_inv sinFn s
  | draw _ ih => exact drawRoom_inv _ ih
  | avoid _ ih => exact avoidRoom_inv _ ih
  | select i _ ih => exact selectCard_inv _ i ih
  | face _ ih => exact faceRoom_inv _ ih

lemma flow_reachable {sinFn : ℚ → ℚ} {g : Game} (h : ReachableFlow sinFn g) :
    Reachable sinFn g := by
  induction h with
  | reset s => exact Reachable.reset s
  | draw _ _ ih => exact Reachable.draw ih
  | avoid _ ih => exact Reachable.avoid ih
  | select i _ ih => exact Reachable.select i ih
  | face _ ih => exact Reachable.face ih

/-- Card conservation along the documented flow, with the equipped
weapon counted via its token. -/
lemma flow_conserve {sinFn : ℚ → ℚ} {g : Game} (h : ReachableFlow sinFn g)
    (hov : g.gameOver = false) : allCardsW g = ↑createDeck := by
  induction h with
  | reset s => exact reset_conserve sinFn s
  | @draw g0 hroom hr ih =>
    cases hov0 : g0.gameOver
    · rw [drawRoom_conserve g0 hroom]
      exact ih hov0
    · exfalso
      rw [drawRoom_over_keep g0 hov0] at hov
      dsimp at hov
      rw [hov0] at hov
      cases hov
  | @avoid g0 hr ih =>
    have hInv := reachable_inv (flow_reachable hr)
    cases hov0 : g0.gameOver
    · rw [avoidRoom_conserve g0 hInv]
      exact ih hov0
    · exfalso
      rw [avoidRoom_over_keep g0 hov0] at hov
      dsimp at hov
      rw [hov0] at hov
      cases hov
  | @select g0 i hr ih =>
    rw [selectCard_allCardsW]
    apply ih
    rw [← selectCard_over g0 i]
    exact hov
  | @face g0 hr ih =>
    have hInv := reachable_inv (flow_reachable hr)
    cases hov0 : g0.gameOver
    · rw [faceRoom_conserve g0 hInv hov]
      exact ih hov0
    · exfalso
      rw [faceRoom_over_keep g0 hov0] at hov
      dsimp at hov
      rw [hov0] at hov
      cases hov

/-! ## A characterization of drawRoom used by several claims -/

lemma drawRoom_core (g : Game) (hov : g.gameOver = false) :
    (g.drawRoom).2.health = g.health ∧
    (g.drawRoom).2.maxHealth = g.maxHealth ∧
    (g.drawRoom).2.canAvoid = g.canAvoid ∧
    (g.drawRoom).2.potionUsedThisTurn = false ∧
    (g.drawRoom).2.roomCarriedCard = none ∧
    ((g.drawRoom).2.gameOver = true ↔
      ((g.drawRoom).2.room.length < 4 ∧ (g.drawRoom).2.deck = [])) ∧
    ((g.drawRoom).2.gameOver = true →
      (g.drawRoom).1 = false ∧ (g.drawRoom).2.gameWon = true) ∧
    ((g.drawRoom).2.gameOver = false →
      (g.drawRoom).2.gameWon = g.gameWon ∧ (g.drawRoom).1 = true) ∧
    (∀ c, g.roomCarriedCard = some c → (g.drawRoom).2.room.head? = some c) := by
  unfold Game.drawRoom Game.endGame
  rw [hov]
  dsimp
  rcases hc : g.roomCarriedCard with _ | c
  · dsimp
    split_ifs with hwin
    · refine ⟨rfl, rfl, rfl, rfl, rfl, Iff.intro (fun _ => hwin) (fun _ => rfl),
        fun _ => ⟨rfl, rfl⟩, ?_, ?_⟩
      · intro hfo
        exact absurd hfo (by simp)
      · intro c0 hc0
        cases hc0
    · refine ⟨rfl, rfl, rfl, rfl, rfl, Iff.intro (fun h => nomatch h) (fun h => absurd h hwin),
        ?_, fun _ => ⟨rfl, rfl⟩, ?_⟩
      · intro hfo
        exact absurd hfo (by simp [hov])
      · intro c0 hc0
        cases hc0
  · have hhead : (drawLoop [c] g.deck).1.head? = some c :=
      (drawLoop_head g.deck [c] (by simp)).trans rfl
    dsimp
    split_ifs with hwin
    · refine ⟨rfl, rfl, rfl, rfl, rfl, Iff.intro (fun _ => hwin) (fun _ => rfl),
        fun _ => ⟨rfl, rfl⟩, ?_, ?_⟩
      · intro hfo
        exact absurd hfo (by simp)
      · intro c0 hc0
        cases hc0
        exact hhead
    · refine ⟨rfl, rfl, rfl, rfl, rfl, Iff.intro (fun h => nomatch h) (fun h => absurd h hwin),
        ?_, fun _ => ⟨rfl, rfl⟩, ?_⟩
      · intro hfo
        exact absurd hfo (by simp [hov])
      · intro c0 hc0
        cases hc0
        exact hhead

/-! ## Concrete runs used by counterexamples and witnesses

The host computation `s ↦ Math.sin(s) * 10000` is abstracted by the
`sinFn` parameter throughout; the concrete runs instantiate it with
simple generators: the constant `sinI`, whose shuffle is the identity,
and the step table `sinT`, whose shuffle is a single swap.  For both,
the Fisher–Yates loop collapses symbolically to the explicit swap
sequence `iterSwapJ`, whose index function is plain natural-number
arithmetic, so run states can be computed by `decide`. -/

def sin0 : ℚ → ℚ := fun _ => 0

/-- Shorthand literal-card constructors (spades / clubs / diamonds /
hearts). -/
def mkS (r : String) (v : Int) : Card := { suit := Suit.spades, rank := r, value := v }

def mkC (r : String) (v : Int) : Card := { suit := Suit.clubs, rank := r, value := v }

def mkD (r : String) (v : Int) : Card := { suit := Suit.diamonds, rank := r, value := v }

def mkH (r : String) (v : Int) : Card := { suit := Suit.hearts, rank := r, value := v }

/-- The swap sequence the Fisher–Yates loop performs once the swap
target at loop counter `i` is given by an index function `j`. -/
def iterSwapJ (j : Nat → Nat) : Nat → Array Card → Array Card
  | 0, a => a
  | i + 1, a => iterSwapJ j i (swapCards a (i + 1) (j i))

/-- For a generator stuck at the fraction `p/q`, the swap target at loop
counter `i` is `p * (i + 2) / q` in natural-number arithmetic. -/
lemma rng_const_j (p q : ℕ) (hpq : p < q) (k : ℕ) :
    (⌊((p:ℚ)/(q:ℚ) - ↑⌊(p:ℚ)/(q:ℚ)⌋) * ((k : ℚ) + 2)⌋).toNat = p * (k + 2) / q := by
  have h0 : ⌊(p:ℚ)/(q:ℚ)⌋ = 0 := by
    rw [Rat.floor_natCast_div_natCast]
    refine Int.ediv_eq_zero_of_lt (by positivity) (by exact_mod_cast hpq)
  have h2 : ((p:ℚ)/(q:ℚ) - ↑(0:ℤ)) * ((k:ℚ)+2) = ((p*(k+2) : ℕ) : ℚ) / ((q : ℕ) : ℚ) := by
    push_cast
    ring
  rw [h0, h2, Rat.floor_natCast_div_natCast, ← Int.natCast_div]
  exact Int.toNat_natCast _

/-- A constant generator turns the Fisher–Yates loop into `iterSwapJ`. -/
lemma fyLoop_const (c : ℚ) (j : Nat → Nat)
    (hj : ∀ i : ℕ, (⌊(c - ↑⌊c⌋) * ((i : ℚ) + 2)⌋).toNat = j i) :
    ∀ (n : Nat) (s : ℚ) (a : Array Card),
      fyLoop (fun _ => c) n s a = iterSwapJ j n a
  | 0, _, _ => rfl
  | n + 1, s, a => by
    rw [fyLoop, iterSwapJ]
    have h1 : rngStep (fun _ => c) s = (c - ↑⌊c⌋, c) := rfl
    rw [h1, hj n]
    exact fyLoop_const c j hj n c (swapCards a (n + 1) (j n))

lemma list_set_getElem_self (l : List Card) (k : Nat) (h : k < l.length) :
    l.set k l[k] = l := by
  apply List.ext_getElem
  · simp
  · intro i h1 h2
    rw [List.getElem_set]
    split
    · next heq => subst heq; rfl
    · rfl

lemma array_eq_of_toList (a b : Array Card) (h : a.toList = b.toList) : a = b := by
  cases a
  cases b
  simpa using h

/-- Swapping an index with itself is the identity. -/
lemma swapCards_self (a : Array Card) (k : Nat) : swapCards a k k = a := by
  unfold swapCards
  split_ifs with h
  · apply array_eq_of_toList
    have hlen : k < a.toList.length := by simpa using h.1
    have hg : a.get ⟨k, h.1⟩ = a.toList[k] := by
      rw [Array.get_eq_getElem]
      exact Array.getElem_eq_getElem_toList h.1
    rw [Array.toList_swap, List.set_set, hg, list_set_getElem_self _ _ hlen]
  · rfl

/-- A swap sequence whose every target equals the running position is
the identity. -/
lemma iterSwapJ_id (j : Nat → Nat) : ∀ (n : Nat), (∀ i, i < n → j i = i + 1) →
    ∀ a, iterSwapJ j n a = a
  | 0, _, _ => rfl
  | n + 1, h, a => by
    rw [iterSwapJ, h n (by omega), swapCards_self]
    exact iterSwapJ_id j n (fun i hi => h i (by omega)) a

/-- The constant generator `43/44`: every swap target
`⌊43/44 · (i + 2)⌋` equals `i + 1` for `i < 43`, so its shuffle of the
44-card deck is the identity. -/
def sinI : ℚ → ℚ := fun _ => 43 / 44

/-- Swap-target function of `sinI`. -/
def jI : Nat → Nat := fun i => 43 * (i + 2) / 44

lemma fyLoop_sinI (n : Nat) (s : ℚ) (a : Array Card) :
    fyLoop sinI n s a = iterSwapJ jI n a :=
  fyLoop_const (43 / 44) jI
    (fun i => by simpa [jI] using rng_const_j 43 44 (by norm_num) i) n s a

/-- The state `reset(0)` produces under `sinI`: the shuffle leaves the
construction-order deck intact. -/
def gA0L : Game :=
  { seed := 0, health := 20, maxHealth := 20, turn := 0, deck := createDeck,
    discard := [], room := [], weapon := none, canAvoid := true,
    roomCarriedCard := none, potionUsedThisTurn := false, selectedCards := [],
    gameOver := false, gameWon := false, defeatingCard := none }

lemma reset_sinI_eq : Game.reset sinI 0 = gA0L := by
  unfold Game.reset gA0L shuffle
  rw [fyLoop_sinI, show createDeck.length - 1 = 43 from rfl,
      iterSwapJ_id jI 43 (fun i hi => by simp only [jI]; omega),
      Array.toList_toArray]

lemma floor_nat_add (n : Nat) (q : ℚ) (h0 : 0 ≤ q) (h1 : q < 1) :
    ⌊(n : ℚ) + q⌋ = n := by
  rw [Int.floor_eq_iff]
  constructor
  · push_cast
    linarith
  · push_cast
    linarith

/-- Fraction table for the generator `sinT`: at pattern index 28 the
fraction forces swap target 1, elsewhere it forces the identity target
`i + 1`. -/
def oT : Nat → ℚ := fun i => if i = 28 then 1 / 30 else ((i : ℚ) + 1) / ((i : ℚ) + 2)

/-- Swap-target function of `sinT`. -/
def jT : Nat → Nat := fun i => if i = 28 then 1 else i + 1

/-- A table-driven generator: its integer part steps by one on each
call, so the running state indexes into the fraction table `oT`.  The
resulting shuffle performs a single swap of positions 29 and 1. -/
def sinT : ℚ → ℚ := fun s => ((⌊s⌋.toNat + 1 : ℕ) : ℚ) + oT (42 - ⌊s⌋.toNat)

lemma oT_mem (i : Nat) : 0 ≤ oT i ∧ oT i < 1 := by
  unfold oT
  split_ifs with h
  · norm_num
  · constructor
    · positivity
    · rw [div_lt_one (by positivity)]
      linarith

lemma oT_j (i : Nat) : (⌊oT i * ((i : ℚ) + 2)⌋).toNat = jT i := by
  unfold oT jT
  split_ifs with h
  · subst h
    rw [show (1 : ℚ) / 30 * (((28 : ℕ) : ℚ) + 2) = 1 by norm_num, Int.floor_one]
    rfl
  · have h2 : ((i : ℚ) + 2) ≠ 0 := by positivity
    rw [div_mul_cancel₀ _ h2,
        show ((i : ℚ) + 1) = ((i + 1 : ℕ) : ℚ) by push_cast; ring,
        Int.floor_natCast]
    exact Int.toNat_natCast _

/-- With `m` passes left and the integer part of the running state at
`43 - m`, the Fisher–Yates loop under `sinT` is `iterSwapJ jT`. -/
lemma fyLoop_sinT : ∀ (m : Nat), m ≤ 43 → ∀ (s : ℚ), ⌊s⌋ = ((43 - m : ℕ) : ℤ) →
    ∀ a, fyLoop sinT m s a = iterSwapJ jT m a
  | 0, _, _, _, _ => rfl
  | m + 1, hm, s, hs, a => by
    have hn : ⌊s⌋.toNat = 43 - (m + 1) := by
      rw [hs]
      exact Int.toNat_natCast _
    have hone : sinT s = ((43 - m : ℕ) : ℚ) + oT m := by
      unfold sinT
      rw [hn]
      congr 2
      · omega
      · omega
    have hoT := oT_mem m
    have hfl : ⌊sinT s⌋ = ((43 - m : ℕ) : ℤ) := by
      rw [hone]
      exact floor_nat_add _ _ hoT.1 hoT.2
    rw [fyLoop, iterSwapJ]
    have hr : rngStep sinT s = (sinT s - ↑⌊sinT s⌋, sinT s) := rfl
    rw [hr]
    have hout : sinT s - ↑⌊sinT s⌋ = oT m := by
      rw [hone] at hfl ⊢
      rw [hfl]
      push_cast
      ring
    rw [hout, oT_j m]
    exact fyLoop_sinT m (by omega) (sinT s) hfl (swapCards a (m + 1) (jT m))

/-- The swap sequence of `jT` is the single swap of positions 29 and 1. -/
lemma iterSwapJ_jT : ∀ (n : Nat), n ≤ 43 → ∀ a,
    iterSwapJ jT n a = if 28 < n then swapCards a 29 1 else a
  | 0, _, a => by
    have h0 : iterSwapJ jT 0 a = a := rfl
    rw [h0, if_neg (by omega : ¬ (28 : ℕ) < 0)]
  | n + 1, hn, a => by
    rw [iterSwapJ]
    by_cases h28 : n = 28
    · subst h28
      rw [show jT 28 = 1 from rfl]
      rw [iterSwapJ_jT 28 (by omega)]
      simp
    · rw [show jT n = n + 1 from by simp [jT, h28], swapCards_self]
      rw [iterSwapJ_jT n (by omega)]
      by_cases h : 28 < n
      · rw [if_pos h, if_pos (by omega)]
      · rw [if_neg h, if_neg (by omega)]

/-- The deck `createDeck` after the single swap of positions 29 and 1:
♦5 moves to deck position 1 and ♣3 takes its place at position 29. -/
def deckCL : List Card :=
  [mkC "2" 2, mkD "5" 5, mkC "4" 4, mkC "5" 5, mkC "6" 6,
   mkC "7" 7, mkC "8" 8, mkC "9" 9, mkC "10" 10, mkC "J" 11,
   mkC "Q" 12, mkC "K" 13, mkC "A" 14, mkS "2" 2, mkS "3" 3,
   mkS "4" 4, mkS "5" 5, mkS "6" 6, mkS "7" 7, mkS "8" 8,
   mkS "9" 9, mkS "10" 10, mkS "J" 11, mkS "Q" 12, mkS "K" 13,
   mkS "A" 14, mkD "2" 2, mkD "3" 3, mkD "4" 4, mkC "3" 3,
   mkD "6" 6, mkD "7" 7, mkD "8" 8, mkD "9" 9, mkD "10" 10,
   mkH "2" 2, mkH "3" 3, mkH "4" 4, mkH "5" 5, mkH "6" 6,
   mkH "7" 7, mkH "8" 8, mkH "9" 9, mkH "10" 10]

/-- The state `reset(0)` produces under `sinT`. -/
def gC0L : Game :=
  { seed := 0, health := 20, maxHealth := 20, turn := 0, deck := deckCL,
    discard := [], room := [], weapon := none, canAvoid := true,
    roomCarriedCard := none, potionUsedThisTurn := false, selectedCards := [],
    gameOver := false, gameWon := false, defeatingCard := none }

lemma reset_sinT_eq : Game.reset sinT 0 = gC0L := by
  unfold Game.reset gC0L shuffle
  rw [show createDeck.length - 1 = 43 from rfl,
      fyLoop_sinT 43 (by omega) 0 (by norm_num),
      iterSwapJ_jT 43 (by omega), if_pos (by omega),
      show (swapCards createDeck.toArray 29 1).toList = deckCL from by decide]

/-- Run A (generator `sinI`, seed 0): the shuffle is the identity, so
the deck is faced in construction order.  Two all-monster club rooms
are faced bare-handed; the fifth monster faced (♣8) is lethal. -/
def gA0 : Game := Game.reset sinI 0

def gA1 : Game := (gA0.drawRoom).2

def gA2 : Game := (((gA1.selectCard 0).2.selectCard 1).2.selectCard 2).2

def gA3 : Game := (gA2.faceRoom).2

def gA4 : Game := (((gA3.selectCard 2).2.selectCard 3).2.selectCard 0).2

def gA5 : Game := (gA4.faceRoom).2

/-- The state at the moment of defeat inside the final `faceRoom` of run
A: the loop stops on the lethal resolution, before the room is cleared. -/
def gAdef : Game := resolveLoop gA4 gA4.selectedCards

/-- Literal form of `gA1`. -/
def gA1L : Game :=
  { seed := 0, health := 20, maxHealth := 20, turn := 1,
    deck := [mkC "6" 6, mkC "7" 7, mkC "8" 8, mkC "9" 9, mkC "10" 10,
      mkC "J" 11, mkC "Q" 12, mkC "K" 13, mkC "A" 14, mkS "2" 2,
      mkS "3" 3, mkS "4" 4, mkS "5" 5, mkS "6" 6, mkS "7" 7,
      mkS "8" 8, mkS "9" 9, mkS "10" 10, mkS "J" 11, mkS "Q" 12,
      mkS "K" 13, mkS "A" 14, mkD "2" 2, mkD "3" 3, mkD "4" 4,
      mkD "5" 5, mkD "6" 6, mkD "7" 7, mkD "8" 8, mkD "9" 9,
      mkD "10" 10, mkH "2" 2, mkH "3" 3, mkH "4" 4, mkH "5" 5,
      mkH "6" 6, mkH "7" 7, mkH "8" 8, mkH "9" 9, mkH "10" 10],
    discard := [],
    room := [mkC "2" 2, mkC "3" 3, mkC "4" 4, mkC "5" 5],
    weapon := none, canAvoid := true,
    roomCarriedCard := none, potionUsedThisTurn := false,
    selectedCards := [], gameOver := false, gameWon := false,
    defeatingCard := none }

/-- Literal form of `gA3`. -/
def gA3L : Game :=
  { seed := 0, health := 11, maxHealth := 20, turn := 2,
    deck := [mkC "9" 9, mkC "10" 10, mkC "J" 11, mkC "Q" 12, mkC "K" 13,
      mkC "A" 14, mkS "2" 2, mkS "3" 3, mkS "4" 4, mkS "5" 5,
      mkS "6" 6, mkS "7" 7, mkS "8" 8, mkS "9" 9, mkS "10" 10,
      mkS "J" 11, mkS "Q" 12, mkS "K" 13, mkS "A" 14, mkD "2" 2,
      mkD "3" 3, mkD "4" 4, mkD "5" 5, mkD "6" 6, mkD "7" 7,
      mkD "8" 8, mkD "9" 9, mkD "10" 10, mkH "2" 2, mkH "3" 3,
      mkH "4" 4, mkH "5" 5, mkH "6" 6, mkH "7" 7, mkH "8" 8,
      mkH "9" 9, mkH "10" 10],
    discard := [mkC "2" 2, mkC "3" 3, mkC "4" 4],
    room := [mkC "5" 5, mkC "6" 6, mkC "7" 7, mkC "8" 8],
    weapon := none, canAvoid := true,
    roomCarriedCard := none, potionUsedThisTurn := false,
    selectedCards := [], gameOver := false, gameWon := false,
    defeatingCard := none }

/-- Literal form of `gA5`. -/
def gA5L : Game :=
  { seed := 0, health := -4, maxHealth := 20, turn := 2,
    deck := [mkC "9" 9, mkC "10" 10, mkC "J" 11, mkC "Q" 12, mkC "K" 13,
      mkC "A" 14, mkS "2" 2, mkS "3" 3, mkS "4" 4, mkS "5" 5,
      mkS "6" 6, mkS "7" 7, mkS "8" 8, mkS "9" 9, mkS "10" 10,
      mkS "J" 11, mkS "Q" 12, mkS "K" 13, mkS "A" 14, mkD "2" 2,
      mkD "3" 3, mkD "4" 4, mkD "5" 5, mkD "6" 6, mkD "7" 7,
      mkD "8" 8, mkD "9" 9, mkD "10" 10, mkH "2" 2, mkH "3" 3,
      mkH "4" 4, mkH "5" 5, mkH "6" 6, mkH "7" 7, mkH "8" 8,
      mkH "9" 9, mkH "10" 10],
    discard := [mkC "2" 2, mkC "3" 3, mkC "4" 4, mkC "7" 7, mkC "8" 8],
    room := [],
    weapon := none, canAvoid := true,
    roomCarriedCard := some (mkC "6" 6), potionUsedThisTurn := false,
    selectedCards := [], gameOver := true, gameWon := false,
    defeatingCard := some (mkC "8" 8) }

/-- Literal form of `gAdef`. -/
def gAdefL : Game :=
  { seed := 0, health := -4, maxHealth := 20, turn := 2,
    deck := [mkC "9" 9, mkC "10" 10, mkC "J" 11, mkC "Q" 12, mkC "K" 13,
      mkC "A" 14, mkS "2" 2, mkS "3" 3, mkS "4" 4, mkS "5" 5,
      mkS "6" 6, mkS "7" 7, mkS "8" 8, mkS "9" 9, mkS "10" 10,
      mkS "J" 11, mkS "Q" 12, mkS "K" 13, mkS "A" 14, mkD "2" 2,
      mkD "3" 3, mkD "4" 4, mkD "5" 5, mkD "6" 6, mkD "7" 7,
      mkD "8" 8, mkD "9" 9, mkD "10" 10, mkH "2" 2, mkH "3" 3,
      mkH "4" 4, mkH "5" 5, mkH "6" 6, mkH "7" 7, mkH "8" 8,
      mkH "9" 9, mkH "10" 10],
    discard := [mkC "2" 2, mkC "3" 3, mkC "4" 4, mkC "7" 7, mkC "8" 8],
    room := [mkC "5" 5, mkC "6" 6, mkC "7" 7, mkC "8" 8],
    weapon := none, canAvoid := true,
    roomCarriedCard := none, potionUsedThisTurn := false,
    selectedCards := [2, 3, 0], gameOver := true, gameWon := false,
    defeatingCard := some (mkC "8" 8) }


set_option maxRecDepth 40000 in
set_option maxHeartbeats 2000000 in
lemma gA1_eq : gA1 = gA1L := by
  unfold gA1 gA0
  rw [reset_sinI_eq]
  decide

set_option maxRecDepth 40000 in
set_option maxHeartbeats 2000000 in
lemma gA3_eq : gA3 = gA3L := by
  unfold gA3 gA2
  rw [gA1_eq]
  decide

set_option maxRecDepth 40000 in
set_option maxHeartbeats 2000000 in
lemma gA5_eq : gA5 = gA5L := by
  unfold gA5 gA4
  rw [gA3_eq]
  decide

set_option maxRecDepth 40000 in
set_option maxHeartbeats 2000000 in
lemma gAdef_eq : gAdef = gAdefL := by
  unfold gAdef gA4
  rw [gA3_eq]
  decide

/-- Run C (generator `sinT`, seed 0): the shuffle performs the single
swap of positions 29 and 1, so the first room is [♣2, ♦5, ♣4, ♣5];
equip ♦5, then defeat ♣5 and ♣4 with it, carrying ♣2. -/
def gC0 : Game := Game.reset sinT 0

def gC1 : Game := (gC0.drawRoom).2

def gC2 : Game := (((gC1.selectCard 1).2.selectCard 3).2.selectCard 2).2

def gC3 : Game := (gC2.faceRoom).2

/-- Literal form of `gC1`. -/
def gC1L : Game :=
  { seed := 0, health := 20, maxHealth := 20, turn := 1,
    deck := [mkC "6" 6, mkC "7" 7, mkC "8" 8, mkC "9" 9, mkC "10" 10,
      mkC "J" 11, mkC "Q" 12, mkC "K" 13, mkC "A" 14, mkS "2" 2,
      mkS "3" 3, mkS "4" 4, mkS "5" 5, mkS "6" 6, mkS "7" 7,
      mkS "8" 8, mkS "9" 9, mkS "10" 10, mkS "J" 11, mkS "Q" 12,
      mkS "K" 13, mkS "A" 14, mkD "2" 2, mkD "3" 3, mkD "4" 4,
      mkC "3" 3, mkD "6" 6, mkD "7" 7, mkD "8" 8, mkD "9" 9,
      mkD "10" 10, mkH "2" 2, mkH "3" 3, mkH "4" 4, mkH "5" 5,
      mkH "6" 6, mkH "7" 7, mkH "8" 8, mkH "9" 9, mkH "10" 10],
    discard := [],
    room := [mkC "2" 2, mkD "5" 5, mkC "4" 4, mkC "5" 5],
    weapon := none, canAvoid := true,
    roomCarriedCard := none, potionUsedThisTurn := false,
    selectedCards := [], gameOver := false, gameWon := false,
    defeatingCard := none }

/-- Literal form of `gC3`: alive, with ♦5 equipped carrying two defeated
monsters on its stack. -/
def gC3L : Game :=
  { seed := 0, health := 20, maxHealth := 20, turn := 2,
    deck := [mkC "9" 9, mkC "10" 10, mkC "J" 11, mkC "Q" 12, mkC "K" 13,
      mkC "A" 14, mkS "2" 2, mkS "3" 3, mkS "4" 4, mkS "5" 5,
      mkS "6" 6, mkS "7" 7, mkS "8" 8, mkS "9" 9, mkS "10" 10,
      mkS "J" 11, mkS "Q" 12, mkS "K" 13, mkS "A" 14, mkD "2" 2,
      mkD "3" 3, mkD "4" 4, mkC "3" 3, mkD "6" 6, mkD "7" 7,
      mkD "8" 8, mkD "9" 9, mkD "10" 10, mkH "2" 2, mkH "3" 3,
      mkH "4" 4, mkH "5" 5, mkH "6" 6, mkH "7" 7, mkH "8" 8,
      mkH "9" 9, mkH "10" 10],
    discard := [],
    room := [mkC "2" 2, mkC "6" 6, mkC "7" 7, mkC "8" 8],
    weapon := some ⟨5, some 4, [mkC "5" 5, mkC "4" 4]⟩, canAvoid := true,
    roomCarriedCard := none, potionUsedThisTurn := false,
    selectedCards := [], gameOver := false, gameWon := false,
    defeatingCard := none }


set_option maxRecDepth 40000 in
set_option maxHeartbeats 2000000 in
lemma gC1_eq : gC1 = gC1L := by
  unfold gC1 gC0
  rw [reset_sinT_eq]
  decide

set_option maxRecDepth 40000 in
set_option maxHeartbeats 2000000 in
lemma gC3_eq : gC3 = gC3L := by
  unfold gC3 gC2
  rw [gC1_eq]
  decide

/-- A live mid-game state with one card left in the deck and health 15,
used by witnesses. -/
def g5w : Game :=
  { seed := 0, health := 15, maxHealth := 20, turn := 3,
    deck := [{ suit := Suit.hearts, rank := "5", value := 5 }],
    discard := [], room := [], weapon := none, canAvoid := true,
    roomCarriedCard := none, potionUsedThisTurn := false, selectedCards := [],
    gameOver := false, gameWon := false, defeatingCard := none }

/-! ## Further helper lemmas shared by the claim theorems -/

lemma drawRoom_canAvoid (g : Game) : (g.drawRoom).2.canAvoid = g.canAvoid := by
  cases hov : g.gameOver
  · exact (drawRoom_core g hov).2.2.1
  · rw [drawRoom_over_keep g hov]

lemma avoidRoom_noop (g : Game)
    (h : g.canAvoid = false ∨ g.gameOver = true ∨ g.room.length ≠ 4) :
    g.avoidRoom = (false, g) := by
  unfold Game.avoidRoom
  rw [if_pos h]

lemma avoidRoom_canAvoid_false (g : Game) (h : (g.avoidRoom).1 = true) :
    (g.avoidRoom).2.canAvoid = false := by
  revert h
  unfold Game.avoidRoom
  split_ifs with hg
  · intro hfalse
    cases hfalse
  · intro _
    dsimp only
    rw [drawRoom_canAvoid]

lemma drawRoom_won_of_over (g : Game) (hpost : ((g.drawRoom).2).gameOver = true)
    (hov : g.gameOver = false) : ((g.drawRoom).2).gameWon = true :=
  ((drawRoom_core g hov).2.2.2.2.2.2.1 hpost).2

lemma drawRoom_carried_none (g : Game) (hov : g.gameOver = false) :
    ((g.drawRoom).2).roomCarriedCard = none :=
  (drawRoom_core g hov).2.2.2.2.1

lemma drawRoom_head (g : Game) (c : Card) (hov : g.gameOver = false)
    (hc : g.roomCarriedCard = some c) : ((g.drawRoom).2).room.head? = some c :=
  (drawRoom_core g hov).2.2.2.2.2.2.2.2 c hc

/-- On a lost game-over state `getScore` recomputes exactly the loss
score `endGame` logged for that state. -/
lemma getScore_loss (g : Game) (hov : g.gameOver = true) (hw : g.gameWon = false) :
    g.getScore = endGameLossScore g := by
  unfold Game.getScore endGameLossScore
  rw [hw, hov]
  rfl

lemma sel_u_perm (sel : List Nat) (u : Nat) (hnd : sel.Nodup) (hlen : sel.length = 3)
    (hsub : ∀ i ∈ sel, i < 4) (hu : u < 4) (hun : u ∉ sel) :
    (sel ++ [u]).Perm [0, 1, 2, 3] := by
  have hnd2 : (sel ++ [u]).Nodup := by
    rw [List.nodup_append]
    exact ⟨hnd, List.nodup_singleton u, by
      intro a ha hb
      simp only [List.mem_singleton] at hb
      exact hun (hb ▸ ha)⟩
  have hsub2 : (sel ++ [u]) ⊆ [0, 1, 2, 3] := by
    intro i hi
    rcases List.mem_append.mp hi with hi | hi
    · exact mem_range4 (hsub i hi)
    · simp only [List.mem_singleton] at hi
      exact mem_range4 (hi ▸ hu)
  refine (List.subperm_of_subset hnd2 hsub2).perm_of_length_le ?_
  simp [hlen]

lemma sel_u_mem (sel : List Nat) (u i : Nat) (hnd : sel.Nodup) (hlen : sel.length = 3)
    (hsub : ∀ j ∈ sel, j < 4) (hu : u < 4) (hun : u ∉ sel) (hi : i < 4) (hne : i ≠ u) :
    i ∈ sel := by
  have hperm := sel_u_perm sel u hnd hlen hsub hu hun
  have hm : i ∈ sel ++ [u] := hperm.mem_iff.mpr (mem_range4 hi)
  rcases List.mem_append.mp hm with h | h
  · exact h
  · simp only [List.mem_singleton] at h
    exact absurd h hne

/-- With three distinct in-range indices selected out of four, the
`find?` in `faceRoom` locates exactly the one unselected index. -/
lemma find_unique_unsel (sel : List Nat) (u : Nat) (hnd : sel.Nodup)
    (hlen : sel.length = 3) (hsub : ∀ j ∈ sel, j < 4) (hu : u < 4) (hun : u ∉ sel) :
    [0, 1, 2, 3].find? (fun i => decide (i ∉ sel)) = some u := by
  interval_cases u
  · simp [List.find?, hun]
  · have h0 : (0:Nat) ∈ sel := sel_u_mem sel 1 0 hnd hlen hsub (by omega) hun (by omega) (by omega)
    simp [List.find?, h0, hun]
  · have h0 : (0:Nat) ∈ sel := sel_u_mem sel 2 0 hnd hlen hsub (by omega) hun (by omega) (by omega)
    have h1 : (1:Nat) ∈ sel := sel_u_mem sel 2 1 hnd hlen hsub (by omega) hun (by omega) (by omega)
    simp [List.find?, h0, h1, hun]
  · have h0 : (0:Nat) ∈ sel := sel_u_mem sel 3 0 hnd hlen hsub (by omega) hun (by omega) (by omega)
    have h1 : (1:Nat) ∈ sel := sel_u_mem sel 3 1 hnd hlen hsub (by omega) hun (by omega) (by omega)
    have h2 : (2:Nat) ∈ sel := sel_u_mem sel 3 2 hnd hlen hsub (by omega) hun (by omega) (by omega)
    simp [List.find?, h0, h1, h2, hun]

/-- A live state with the room potion flag already set and a second
potion (♥5) in the room. -/
def gPot : Game :=
  { seed := 0, health := 10, maxHealth := 20, turn := 1,
    deck := [mkS "9" 9], discard := [mkH "3" 3],
    room := [mkH "5" 5, mkS "2" 2, mkS "3" 3, mkS "4" 4], weapon := none,
    canAvoid := true, roomCarriedCard := none, potionUsedThisTurn := true,
    selectedCards := [], gameOver := false, gameWon := false,
    defeatingCard := none }

/-- The second potion of `gPot`. -/
def pPot : Card := mkH "5" 5

/-- A live 4-card-room state from which `avoidRoom` succeeds. -/
def gAv : Game :=
  { seed := 0, health := 12, maxHealth := 20, turn := 2, deck := [],
    discard := [], room := [mkS "5" 5, mkS "6" 6, mkH "2" 2, mkD "3" 3],
    weapon := none, canAvoid := true, roomCarriedCard := none,
    potionUsedThisTurn := false, selectedCards := [], gameOver := false,
    gameWon := false, defeatingCard := none }

/-- A low-health state about to face a lethal monster room. -/
def gKill : Game :=
  { seed := 0, health := 3, maxHealth := 20, turn := 2,
    deck := [mkS "8" 8, mkH "4" 4], discard := [],
    room := [mkS "5" 5, mkC "6" 6, mkH "2" 2, mkD "4" 4],
    weapon := none, canAvoid := true, roomCarriedCard := none,
    potionUsedThisTurn := false, selectedCards := [0, 1, 2], gameOver := false,
    gameWon := false, defeatingCard := none }

/-- A survivable 4-card-room state with indices [0, 2, 3] selected, so
index 1 is carried. -/
def gC8w : Game :=
  { seed := 0, health := 12, maxHealth := 20, turn := 2,
    deck := [mkS "9" 9, mkH "6" 6, mkS "10" 10, mkC "2" 2],
    discard := [], room := [mkS "5" 5, mkS "6" 6, mkH "2" 2, mkD "3" 3],
    weapon := none, canAvoid := false, roomCarriedCard := none,
    potionUsedThisTurn := false, selectedCards := [0, 2, 3], gameOver := false,
    gameWon := false, defeatingCard := none }

/-! ## Claim theorems -/

/-- C1: when `resolveMonster` runs with a weapon equipped and
(`lastDefeated` null or the monster value at most `lastDefeated`), the
weapon is used: damage `max(0, value - weaponValue)` comes off health,
the monster is appended to the weapon's defeat history, `lastDefeated`
becomes the monster's value, and discard is untouched; otherwise the
full value is taken bare-handed, the card goes to discard, and the
weapon is unchanged. -/
theorem C1_resolveMonster_weapon_rule (g : Game) (card : Card)
    (hv : 0 ≤ card.value) :
    (∀ w, g.weapon = some w →
      (w.lastDefeated = none ∨ ∃ ld, w.lastDefeated = some ld ∧ card.value ≤ ld) →
      (g.resolveMonster card).health = g.health - max 0 (card.value - w.value) ∧
      (g.resolveMonster card).weapon
        = some { value := w.value, lastDefeated := some card.value,
                 defeatedMonsters := w.defeatedMonsters ++ [card] } ∧
      (g.resolveMonster card).discard = g.discard) ∧
    ((g.weapon = none ∨
        ∃ w ld, g.weapon = some w ∧ w.lastDefeated = some ld ∧ ld < card.value) →
      (g.resolveMonster card).health = g.health - card.value ∧
      (g.resolveMonster card).discard = g.discard ++ [card] ∧
      (g.resolveMonster card).weapon = g.weapon) := by
  constructor
  · intro w hw hcase
    rcases resolveMonster_cases g card with ⟨w2, hw2, _, heq⟩ | ⟨hcond, heq⟩
    · rw [hw] at hw2
      injection hw2 with hww
      subst hww
      rw [heq]
      have hmax := le_max_left 0 (card.value - w.value)
      rcases applyMonsterDamage_cases
          { g with weapon := some { value := w.value, lastDefeated := some card.value,
                                    defeatedMonsters := w.defeatedMonsters ++ [card] } }
          card (max 0 (card.value - w.value)) with ⟨hd, h2⟩ | ⟨hd, _, h2⟩ | ⟨hd, _, h2⟩
      · rw [h2]
        exact ⟨by dsimp; omega, rfl, rfl⟩
      · rw [h2]
        exact ⟨rfl, rfl, rfl⟩
      · rw [h2]
        exact ⟨rfl, rfl, rfl⟩
    · exfalso
      rcases hcond with hnone | ⟨w2, ld, hw2, hld, hlt⟩
      · rw [hw] at hnone
        cases hnone
      · rw [hw] at hw2
        injection hw2 with hww
        subst hww
        rcases hcase with hnone | ⟨ld2, hld2, hle⟩
        · rw [hld] at hnone
          cases hnone
        · rw [hld] at hld2
          injection hld2 with hldd
          omega
  · intro hcond
    rcases resolveMonster_cases g card with ⟨w2, hw2, hcase, heq⟩ | ⟨_, heq⟩
    · exfalso
      rcases hcond with hnone | ⟨w, ld, hw, hld, hlt⟩
      · rw [hw2] at hnone
        cases hnone
      · rw [hw2] at hw
        injection hw with hww
        subst hww
        rcases hcase with hnone | ⟨ld2, hld2, hle⟩
        · rw [hld] at hnone
          cases hnone
        · rw [hld] at hld2
          injection hld2 with hldd
          omega
    · rw [heq]
      rcases applyMonsterDamage_cases { g with discard := g.discard ++ [card] }
          card card.value with ⟨hd, h2⟩ | ⟨hd, _, h2⟩ | ⟨hd, _, h2⟩
      · rw [h2]
        exact ⟨by dsimp; omega, rfl, rfl⟩
      · rw [h2]
        exact ⟨rfl, rfl, rfl⟩
      · rw [h2]
        exact ⟨rfl, rfl, rfl⟩

/-- C1 witness: a concrete weapon-branch resolution. -/
theorem C1_resolveMonster_weapon_rule_witness :
    (0 : Int) ≤ (8 : Int) ∧
    ((g5w.resolveWeapon { suit := Suit.diamonds, rank := "7", value := 7 }).resolveMonster
        { suit := Suit.spades, rank := "8", value := 8 }).health = 15 - max 0 (8 - 7) := by
  have h := C1_resolveMonster_weapon_rule
    (g5w.resolveWeapon { suit := Suit.diamonds, rank := "7", value := 7 })
    { suit := Suit.spades, rank := "8", value := 8 } (by decide)
  refine ⟨by decide, ?_⟩
  have h2 := (h.1 { value := 7, lastDefeated := none, defeatedMonsters := [] } rfl
    (Or.inl rfl)).1
  exact h2.trans (by decide)

/-- C4: two resets with the same seed against the same host generator
yield identical decks and identical first drawn rooms, and the seeded
shuffle is a permutation of the 44-card deck. -/
theorem C4_seeded_determinism (sinFn : ℚ → ℚ) (s : ℚ) (g1 g2 : Game)
    (h1 : g1 = Game.reset sinFn s) (h2 : g2 = Game.reset sinFn s) :
    g1.deck = g2.deck ∧ g1.drawRoom = g2.drawRoom ∧ g1.deck.Perm createDeck := by
  subst h1 h2
  refine ⟨rfl, rfl, ?_⟩
  simp only [Game.reset]
  exact shuffle_perm sinFn createDeck s

/-- C4 witness: the two-run equality at generator `sin0` and seed 42. -/
theorem C4_seeded_determinism_witness :
    (Game.reset sin0 42).deck = (Game.reset sin0 42).deck ∧
    (Game.reset sin0 42).drawRoom = (Game.reset sin0 42).drawRoom ∧
    (Game.reset sin0 42).deck.Perm createDeck :=
  C4_seeded_determinism sin0 42 _ _ rfl rfl

/-- C5: from a live state, `drawRoom` ends the game exactly when the
drawn room holds fewer than 4 cards with an empty deck; it then returns
false with a win, preserves health, and `getScore` returns that health. -/
theorem C5_drawRoom_win (g : Game) (hov : g.gameOver = false) :
    ((g.drawRoom).2.gameOver = true ↔
      ((g.drawRoom).2.room.length < 4 ∧ (g.drawRoom).2.deck = [])) ∧
    ((g.drawRoom).2.gameOver = true →
      (g.drawRoom).1 = false ∧ (g.drawRoom).2.gameWon = true ∧
      (g.drawRoom).2.health = g.health ∧
      Game.getScore (g.drawRoom).2 = g.health) ∧
    ((g.drawRoom).2.gameOver = false → (g.drawRoom).1 = true) := by
  obtain ⟨hhealth, _, _, _, _, hiff, hwin, hlive, _⟩ := drawRoom_core g hov
  refine ⟨hiff, ?_, fun h => (hlive h).2⟩
  intro h
  obtain ⟨hret, hwon⟩ := hwin h
  refine ⟨hret, hwon, hhealth, ?_⟩
  unfold Game.getScore
  rw [hwon]
  simpa using hhealth

/-- C5 witness: deck down to one card and health 15 gives a win scored 15. -/
theorem C5_drawRoom_win_witness :
    ((g5w.drawRoom).2.gameOver = true →
      (g5w.drawRoom).1 = false ∧ (g5w.drawRoom).2.gameWon = true ∧
      (g5w.drawRoom).2.health = g5w.health ∧
      Game.getScore (g5w.drawRoom).2 = g5w.health) ∧
    (g5w.drawRoom).2.gameOver = true ∧ g5w.health = 15 :=
  ⟨(C5_drawRoom_win g5w rfl).2.1, rfl, rfl⟩

/-- C6: the first potion of a room heals by its value clamped at
`maxHealth` and sets the flag; any later potion in the same room is
discarded with no health change; `drawRoom` resets the flag. -/
theorem C6_potion_once_per_room (g : Game) (c : Card) :
    (g.potionUsedThisTurn = false →
      g.resolvePotion c = { g with health := min g.maxHealth (g.health + c.value),
                                   potionUsedThisTurn := true,
                                   discard := g.discard ++ [c] }) ∧
    (g.potionUsedThisTurn = true →
      g.resolvePotion c = { g with discard := g.discard ++ [c] }) ∧
    min g.maxHealth (g.health + c.value) ≤ g.maxHealth ∧
    (g.gameOver = false → (g.drawRoom).2.potionUsedThisTurn = false) := by
  refine ⟨?_, ?_, min_le_left _ _, fun hov => (drawRoom_core g hov).2.2.2.1⟩
  · intro h
    unfold Game.resolvePotion
    rw [if_neg (by simp [h])]
  · intro h
    unfold Game.resolvePotion
    rw [if_pos h]

/-- C6 witness: a potion of value 9 at health 15 heals to 20, not 24;
with the flag set, health does not change. -/
theorem C6_potion_once_per_room_witness :
    g5w.potionUsedThisTurn = false ∧
    g5w.resolvePotion { suit := Suit.hearts, rank := "9", value := 9 }
      = { g5w with health := min g5w.maxHealth (g5w.health + 9),
                   potionUsedThisTurn := true,
                   discard := g5w.discard ++ [{ suit := Suit.hearts, rank := "9", value := 9 }] } :=
  ⟨rfl, (C6_potion_once_per_room g5w { suit := Suit.hearts, rank := "9", value := 9 }).1 rfl⟩

/-- C2 (amended): along the documented driver flow (`drawRoom` invoked
directly only over an empty room, as the UI does), every live state's
card multiset — deck, discard, room, weapon stack and carried card —
equals the 44 created cards ONCE the equipped weapon is also counted,
via the standalone card object `resolveWeapon` will push on replacement.
The claim as stated fails: the equipped weapon's card belongs to none of
the five collections it lists (see the counterexample), and a bare
`drawRoom` over a standing room silently drops that room's cards. -/
theorem C2_conservation (sinFn : ℚ → ℚ) (g : Game) (h : ReachableFlow sinFn g)
    (hov : g.gameOver = false) :
    allCards g + ↑(tokenCards g) = ↑createDeck :=
  flow_conserve h hov

/-- C2 witness: the amended conservation at the weapon-equipped state
`gC3` of run C, reached along the documented flow. -/
theorem C2_conservation_witness :
    allCards gC3 + ↑(tokenCards gC3) = ↑createDeck :=
  C2_conservation sinT gC3
    (ReachableFlow.face (ReachableFlow.select 2 (ReachableFlow.select 3
      (ReachableFlow.select 1 (ReachableFlow.draw rfl (ReachableFlow.reset 0))))))
    (by rw [gC3_eq]; rfl)

/-- C2 counterexample: `gC3` is reachable and live, yet the multiset
the claim names (without the equipped ♦5) has only 43 of the 44 cards. -/
theorem C2_conservation_counterexample :
    Reachable sinT gC3 ∧ gC3.gameOver = false ∧
    allCards gC3 ≠ ↑createDeck := by
  refine ⟨?_, ?_, ?_⟩
  · exact Reachable.face (Reachable.select 2 (Reachable.select 3 (Reachable.select 1
      (Reachable.draw (Reachable.reset 0)))))
  · rw [gC3_eq]
    rfl
  · intro hEq
    have h43 : Multiset.card (allCards gC3) = 43 := by
      rw [gC3_eq]
      decide
    rw [hEq] at h43
    have h44 : Multiset.card (↑createDeck : Multiset Card) = 44 := by decide
    rw [h44] at h43
    exact absurd h43 (by decide)

/-- C3 (amended): a lethal `resolveMonster` records the monster as
`defeatingCard`, ends the game as a loss, and at that instant `getScore`
agrees with the loss score `endGame` computes; but when the enclosing
`faceRoom` returns it has cleared the room, so the `getScore` a caller
can then observe counts deck monsters only.  The claim's assertion that
the score "subsequently returned by getScore()" equals the at-defeat
score −(deck + room monsters) fails whenever a monster remains in the
room (see the counterexample: logged −199 vs observable −173). -/
theorem C3_loss_score (g : Game) (c : Card) :
    (g.gameOver = false → (g.resolveMonster c).gameOver = true →
      (g.resolveMonster c).defeatingCard = some c ∧
      (g.resolveMonster c).gameWon = false ∧
      (g.resolveMonster c).health ≤ 0 ∧
      (g.resolveMonster c).deck = g.deck ∧
      (g.resolveMonster c).room = g.room ∧
      (g.resolveMonster c).getScore = endGameLossScore (g.resolveMonster c)) ∧
    ((g.faceRoom).1 = true → (g.faceRoom).2.gameOver = true →
      (g.faceRoom).2.gameWon = false →
      (g.faceRoom).2.room = [] ∧
      (g.faceRoom).2.getScore =
        -((g.faceRoom).2.deck.filter
            (fun x => decide (getCardType x = CardType.monster))).foldl
          (fun sum card => sum + card.value) 0) := by
  constructor
  · intro hov hpost
    have hd := resolveMonster_death g c hov hpost
    have hf := resolveMonster_frame g c
    exact ⟨hd.1, hd.2.1, hd.2.2, hf.2.1, hf.1,
      getScore_loss _ hpost hd.2.1⟩
  · unfold Game.faceRoom
    split_ifs with h1
    · intro hfalse
      cases hfalse
    · push_neg at h1
      obtain ⟨hsel, hovne⟩ := h1
      have hov2 : g.gameOver = false := by simpa using hovne
      obtain ⟨u, hfind, hu, hun⟩ := find_unselected g.selectedCards (by omega)
      rw [hfind]
      dsimp only
      split_ifs with hg3ov
      · intro _ hpost hwon
        exfalso
        dsimp only at hpost hwon
        rw [drawRoom_won_of_over _ hpost hg3ov] at hwon
        cases hwon
      · intro _ hpost hwon
        dsimp only at hpost hwon ⊢
        refine ⟨rfl, ?_⟩
        refine (getScore_loss _ ?_ ?_).trans ?_
        · exact hpost
        · exact hwon
        · unfold endGameLossScore remainingMonstersAt
          dsimp only
          rw [List.filter_nil, List.append_nil]

/-- C3 witness: on `gKill`, resolving ♠5 is lethal and the at-defeat
scores agree; the enclosing `faceRoom` leaves an empty room and a score
of −8 (the ♠8 left in the deck). -/
theorem C3_loss_score_witness :
    (gKill.resolveMonster (mkS "5" 5)).defeatingCard = some (mkS "5" 5) ∧
    (gKill.resolveMonster (mkS "5" 5)).getScore
        = endGameLossScore (gKill.resolveMonster (mkS "5" 5)) ∧
    (gKill.faceRoom).2.room = [] ∧
    (gKill.faceRoom).2.getScore = -8 := by
  have ha := (C3_loss_score gKill (mkS "5" 5)).1 rfl (by decide)
  have hb := (C3_loss_score gKill (mkS "5" 5)).2 (by decide) (by decide) (by decide)
  refine ⟨ha.1, ha.2.2.2.2.2, hb.1, ?_⟩
  rw [hb.2]
  decide

/-- C3 counterexample: run A's lethal ♣8.  At the moment of defeat
(state `gAdef`, room still [♣5,♣6,♣7,♣8]) `endGame` computes −199, but
after `faceRoom` returns, the rest state `gA5` has the identical deck
and `getScore` yields −173: the logged score and every later
`getScore()` differ by the cleared room's 26 monster points. -/
theorem C3_loss_score_counterexample :
    Reachable sinI gA5 ∧ gA5 = (gA4.faceRoom).2 ∧
    gAdef = resolveLoop gA4 gA4.selectedCards ∧
    gA5.gameOver = true ∧ gA5.gameWon = false ∧
    gA5.defeatingCard = some (mkC "8" 8) ∧
    gA5.deck = gAdef.deck ∧
    endGameLossScore gAdef = -199 ∧
    gA5.getScore = -173 := by
  refine ⟨?_, rfl, rfl, ?_, ?_, ?_, ?_, ?_, ?_⟩
  · exact Reachable.face (Reachable.select 0 (Reachable.select 3 (Reachable.select 2
      (Reachable.face (Reachable.select 2 (Reachable.select 1 (Reachable.select 0
        (Reachable.draw (Reachable.reset 0)))))))))
  · rw [gA5_eq]
    rfl
  · rw [gA5_eq]
    rfl
  · rw [gA5_eq]
    decide
  · rw [gA5_eq, gAdef_eq]
    decide
  · rw [gAdef_eq]
    decide
  · rw [gA5_eq]
    decide

/-- C7: each invalid-but-foreseeable misuse returns `false` with the
state unchanged — `avoidRoom` when not permitted, `faceRoom` with a
selection count other than 3, `selectCard` with an index not referencing
a room card, and any operation after game over; moreover a successful
`avoidRoom` clears `canAvoid`, so a second `avoidRoom` fails, and
`canAvoid` is restored only by a successful `faceRoom` (`drawRoom` and
`selectCard` never change it). -/
theorem C7_silent_noops (g : Game) (i : Nat) :
    (g.canAvoid = false ∨ g.gameOver = true ∨ g.room.length ≠ 4 →
      g.avoidRoom = (false, g)) ∧
    (g.selectedCards.length ≠ 3 ∨ g.gameOver = true → g.faceRoom = (false, g)) ∧
    (g.gameOver = true ∨ g.room.length ≤ i → g.selectCard i = (false, g)) ∧
    (g.gameOver = true → g.drawRoom = (false, g)) ∧
    ((g.avoidRoom).1 = true →
      (g.avoidRoom).2.canAvoid = false ∧
      ((g.avoidRoom).2).avoidRoom = (false, (g.avoidRoom).2)) ∧
    ((g.drawRoom).2.canAvoid = g.canAvoid) ∧
    ((g.selectCard i).2.canAvoid = g.canAvoid) ∧
    ((g.faceRoom).1 = true → (g.faceRoom).2.canAvoid = true) := by
  refine ⟨avoidRoom_noop g, ?_, ?_, ?_, ?_, drawRoom_canAvoid g, ?_, ?_⟩
  · intro h
    unfold Game.faceRoom
    rw [if_pos h]
  · intro h
    unfold Game.selectCard
    rw [if_pos h]
  · intro h
    unfold Game.drawRoom
    rw [if_pos h]
  · intro hsucc
    refine ⟨avoidRoom_canAvoid_false g hsucc, ?_⟩
    exact avoidRoom_noop _ (Or.inl (avoidRoom_canAvoid_false g hsucc))
  · unfold Game.selectCard
    split_ifs <;> rfl
  · unfold Game.faceRoom
    split_ifs with h1
    · intro hfalse
      cases hfalse
    · intro _
      dsimp only
      rcases hfind : List.find? (fun j => decide (j ∉ g.selectedCards)) [0, 1, 2, 3]
          with _ | u
      all_goals dsimp only
      all_goals split_ifs with h2
      · rw [drawRoom_canAvoid]
      · rfl
      · rw [drawRoom_canAvoid]
      · rfl

/-- C7 witness: concrete no-ops on `g5w` (empty room), and a successful
avoid on `gAv` whose repeat fails with the state unchanged. -/
theorem C7_silent_noops_witness :
    g5w.faceRoom = (false, g5w) ∧ g5w.selectCard 5 = (false, g5w) ∧
    (gAv.avoidRoom).1 = true ∧ (gAv.avoidRoom).2.canAvoid = false ∧
    ((gAv.avoidRoom).2).avoidRoom = (false, (gAv.avoidRoom).2) :=
  ⟨(C7_silent_noops g5w 5).2.1 (Or.inl (by decide)),
   (C7_silent_noops g5w 5).2.2.1 (Or.inr (by decide)), by decide,
   ((C7_silent_noops gAv 0).2.2.2.2.1 (by decide)).1,
   ((C7_silent_noops gAv 0).2.2.2.2.1 (by decide)).2⟩

/-- C8: on a 4-card room with exactly 3 distinct selected indices,
`faceRoom` succeeds; the card at the unique unselected index `u` becomes
the carried card — it is the head of the freshly drawn next room when
the game goes on (also when that draw itself wins the game), and it
remains recorded in `roomCarriedCard` when a mid-loop resolution ended
the game, the loop having aborted early.  The three selected cards are
resolved in selection order by construction of `resolveLoop`, which
iterates `selectedCards` as pushed by `selectCard`. -/
theorem C8_carried_card (g : Game) (u : Nat)
    (hov : g.gameOver = false) (hwon : g.gameWon = false)
    (hroom : g.room.length = 4) (hsel : g.selectedCards.length = 3)
    (hnd : g.selectedCards.Nodup) (hlt : ∀ i ∈ g.selectedCards, i < 4)
    (hu : u < 4) (hun : u ∉ g.selectedCards) :
    (g.faceRoom).1 = true ∧
    ((g.faceRoom).2.gameOver = true → (g.faceRoom).2.gameWon = false →
      (g.faceRoom).2.roomCarriedCard = g.room[u]?) ∧
    ((g.faceRoom).2.gameOver = false →
      (g.faceRoom).2.roomCarriedCard = none ∧
      (g.faceRoom).2.room.head? = g.room[u]?) ∧
    ((g.faceRoom).2.gameOver = true → (g.faceRoom).2.gameWon = true →
      (g.faceRoom).2.room.head? = g.room[u]?) := by
  have hfind := find_unique_unsel g.selectedCards u hnd hsel hlt hu hun
  have hguard : ¬(g.selectedCards.length ≠ 3 ∨ g.gameOver = true) := by
    push_neg
    refine ⟨by omega, by simp [hov]⟩
  have hfr := resolveLoop_frame g g.selectedCards
  have hw1 : (resolveLoop g g.selectedCards).gameWon = false :=
    resolveLoop_won_false g g.selectedCards hwon
  have hulen : u < g.room.length := by omega
  have hru : g.room[u]? = some g.room[u] := List.getElem?_eq_getElem hulen
  unfold Game.faceRoom
  rw [if_neg hguard, hfind]
  dsimp only
  split_ifs with hg3ov
  · refine ⟨rfl, ?_, ?_, ?_⟩
    · intro hpost hwpost
      exfalso
      dsimp only at hpost hwpost
      rw [drawRoom_won_of_over _ hpost hg3ov] at hwpost
      cases hwpost
    · intro hpost
      constructor
      · dsimp only
        exact drawRoom_carried_none _ hg3ov
      · dsimp only
        rw [hru]
        refine drawRoom_head _ _ ?_ ?_
        · exact hg3ov
        · dsimp only
          rw [hfr.1, hru]
    · intro hpost hwpost
      dsimp only
      rw [hru]
      refine drawRoom_head _ _ ?_ ?_
      · exact hg3ov
      · dsimp only
        rw [hfr.1, hru]
  · have hov3 : (resolveLoop g g.selectedCards).gameOver = true := by
      revert hg3ov
      rcases (resolveLoop g g.selectedCards).gameOver <;> simp
    refine ⟨rfl, ?_, ?_, ?_⟩
    · intro _ _
      dsimp only
      rw [hfr.1]
    · intro hpost
      dsimp only at hpost
      rw [hov3] at hpost
      cases hpost
    · intro _ hwpost
      dsimp only at hwpost
      rw [hw1] at hwpost
      cases hwpost

/-- C8 witness: selecting [0, 2, 3] on `gC8w` carries index 1's ♠6 into
the next room's first slot. -/
theorem C8_carried_card_witness :
    (gC8w.faceRoom).1 = true ∧ (gC8w.faceRoom).2.roomCarriedCard = none ∧
    (gC8w.faceRoom).2.room.head? = gC8w.room[1]? := by
  have h := C8_carried_card gC8w 1 rfl rfl rfl rfl (by decide) (by decide)
    (by omega) (by decide)
  have h3 := h.2.2.1 (by decide)
  exact ⟨h.1, h3.1, h3.2⟩

/-- C9 (amended): at every reachable rest point `maxHealth` is 20 and
`health ≤ 20`, and health is positive while the game is live; but the
claimed lower bound `0 ≤ health` fails — a lethal blow leaves the
negative health unclamped in the terminal rest state, so non-positive
health occurs exactly in lost game-over states. -/
theorem C9_health_bounds (sinFn : ℚ → ℚ) (g : Game) (h : Reachable sinFn g) :
    g.maxHealth = 20 ∧ g.health ≤ 20 ∧
    (g.gameOver = false → 0 < g.health) ∧
    (g.health ≤ 0 → g.gameOver = true ∧ g.gameWon = false) := by
  have hInv := reachable_inv h
  refine ⟨hInv.maxH, hInv.healthLe, hInv.healthPos, ?_⟩
  intro hh
  cases hov : g.gameOver with
  | false => exact absurd hh (by have := hInv.healthPos hov; omega)
  | true =>
    refine ⟨rfl, ?_⟩
    cases hw : g.gameWon with
    | false => rfl
    | true => exact absurd hh (by have := hInv.wonPos hw; omega)

/-- C9 witness: the amended bounds at the reachable mid-run state `gA3`. -/
theorem C9_health_bounds_witness :
    gA3.maxHealth = 20 ∧ gA3.health ≤ 20 ∧
    (gA3.gameOver = false → 0 < gA3.health) ∧
    (gA3.health ≤ 0 → gA3.gameOver = true ∧ gA3.gameWon = false) :=
  C9_health_bounds sinI gA3
    (Reachable.face (Reachable.select 2 (Reachable.select 1 (Reachable.select 0
      (Reachable.draw (Reachable.reset 0))))))

/-- C9 counterexample: the reachable rest state `gA5` has health −4 at
a rest point, violating the claimed `0 ≤ health`. -/
theorem C9_health_bounds_counterexample :
    Reachable sinI gA5 ∧ gA5.gameOver = true ∧ gA5.health = -4 := by
  refine ⟨?_, ?_, ?_⟩
  · exact Reachable.face (Reachable.select 0 (Reachable.select 3 (Reachable.select 2
      (Reachable.face (Reachable.select 2 (Reachable.select 1 (Reachable.select 0
        (Reachable.draw (Reachable.reset 0)))))))))
  · rw [gA5_eq]
    rfl
  · rw [gA5_eq]
    decide

/-- C10 (amended): `canResolveCard` is pure and advisory except in the
used-potion case, where — contrary to the claim — it returns
`canResolve = false` (with the "Only one potion per room" reason);
everywhere else `canResolve` is true, with `forceBareHanded` set for a
monster beyond the equipped weapon's `lastDefeated`.  Resolution itself
is indeed never blocked: `resolvePotion` with the flag set still
discards the card, merely without healing. -/
theorem C10_canResolve_advisory (g : Game) (c : Card) :
    (getCardType c = CardType.potion ∧ g.potionUsedThisTurn = true →
      g.canResolveCard c =
        { canResolve := false, reason := some "Only one potion per room",
          forceBareHanded := false }) ∧
    (¬(getCardType c = CardType.potion ∧ g.potionUsedThisTurn = true) →
      (g.canResolveCard c).canResolve = true) ∧
    (∀ w ld, g.weapon = some w → w.lastDefeated = some ld →
      getCardType c = CardType.monster → ld < c.value →
      (g.canResolveCard c).forceBareHanded = true) ∧
    (g.potionUsedThisTurn = true →
      g.resolvePotion c = { g with discard := g.discard ++ [c] }) := by
  refine ⟨?_, ?_, ?_, ?_⟩
  · intro hcond
    unfold Game.canResolveCard
    dsimp only
    rw [if_pos hcond]
  · intro hcond
    unfold Game.canResolveCard
    dsimp only
    rw [if_neg hcond]
    rcases htype : getCardType c with _ | _ | _ <;>
      rcases hw : g.weapon with _ | w <;> dsimp only
    rcases hl : w.lastDefeated with _ | ld
    · rfl
    · dsimp only
      split_ifs <;> rfl
  · intro w ld hw hld htype hlt
    have hcond : ¬(getCardType c = CardType.potion ∧ g.potionUsedThisTurn = true) := by
      rw [htype]
      rintro ⟨h1, -⟩
      cases h1
    unfold Game.canResolveCard
    dsimp only
    rw [if_neg hcond, htype, hw]
    dsimp only
    rw [hld]
    dsimp only
    rw [if_pos hlt]
  · intro hflag
    unfold Game.resolvePotion
    rw [if_pos hflag]

/-- C10 witness: the characterization instantiated at `gPot` and its
second potion ♥5. -/
theorem C10_canResolve_advisory_witness :
    gPot.canResolveCard pPot =
      { canResolve := false, reason := some "Only one potion per room",
        forceBareHanded := false } ∧
    gPot.resolvePotion pPot = { gPot with discard := gPot.discard ++ [pPot] } :=
  ⟨(C10_canResolve_advisory gPot pPot).1 ⟨rfl, rfl⟩,
   (C10_canResolve_advisory gPot pPot).2.2.2 rfl⟩

/-- C10 counterexample: in the used-potion state `gPot`, the claimed
"always `canResolve = true`" fails on the potion ♥5. -/
theorem C10_canResolve_advisory_counterexample :
    getCardType pPot = CardType.potion ∧ gPot.potionUsedThisTurn = true ∧
    gPot.gameOver = false ∧ (gPot.canResolveCard pPot).canResolve = false :=
  ⟨rfl, rfl, rfl, rfl⟩

end Scoundrel
